import Mathlib

/-!
Verification development for the airglow module of the skysim repository
(`skysim/airglow.py`).

The development has two layers.

Scalar layer: the functions `airmass_ag` and `airglow_scattering` act
elementwise on their numpy inputs; we embed the scalar computation over ℝ,
with numpy's `**` as `Real.rpow`, `np.log10` as `Real.logb 10`, and
`np.deg2rad` as multiplication by π/180.

Array layer: `get_airglow` manipulates numpy ndarrays.  We embed ndarrays
as a shape (list of dimension sizes) together with the row-major flat data,
and give the numpy broadcasting rules explicitly.  The shared atmosphere
table lives in an explicit heap (a list of array buffers) so that the
copy/alias structure of the source is visible: every numpy array creation
allocates a fresh buffer and the single in-place update (`tau0 += ...`)
writes its buffer through `hset`.  Fallible numpy operations (broadcasting
mismatches, the bare `assert`) return `Except`.

External collaborators living in this repository but outside the sources
at hand (`skysim.utils.resample.resample_density`, and
`skysim.transmission.tau0R` / `tau0M`) are modelled from the spec as
function parameters of the pipeline.
-/

set_option maxHeartbeats 1000000

noncomputable section

/-- Embedding of np.deg2rad: convert degrees to radians. -/
def deg2rad (z : ℝ) : ℝ := z * (Real.pi / 180)

/-- Embedding of airmass_ag (airglow.py line 28):
airmass = (1 - 0.972 * sin(deg2rad z)^2) ** (-0.5). -/
def airmass_ag (z : ℝ) : ℝ :=
  (1 - 0.972 * Real.sin (deg2rad z) ^ 2) ^ (-0.5 : ℝ)

/-- Embedding of airglow_scattering (airglow.py lines 52-56):
x = log10(airmass_ag z); returns (1.669*x - 0.146, 1.732*x - 0.318). -/
def airglow_scattering (z : ℝ) : ℝ × ℝ :=
  let x := Real.logb 10 (airmass_ag z)
  (1.669 * x - 0.146, 1.732 * x - 0.318)

/-- The base of the rpow in airmass_ag. -/
def airmassBase (z : ℝ) : ℝ := 1 - 0.972 * Real.sin (deg2rad z) ^ 2

lemma airmassBase_ge (z : ℝ) : (0.028 : ℝ) ≤ airmassBase z := by
  have h1 : Real.sin (deg2rad z) ^ 2 ≤ 1 := Real.sin_sq_le_one _
  unfold airmassBase
  nlinarith

lemma airmassBase_le_one (z : ℝ) : airmassBase z ≤ 1 := by
  have h1 : 0 ≤ Real.sin (deg2rad z) ^ 2 := sq_nonneg _
  unfold airmassBase
  nlinarith

lemma airmassBase_pos (z : ℝ) : 0 < airmassBase z :=
  lt_of_lt_of_le (by norm_num) (airmassBase_ge z)

/-- airmass_ag is the reciprocal square root of the base. -/
lemma airmass_ag_eq_inv_sqrt (z : ℝ) :
    airmass_ag z = (Real.sqrt (airmassBase z))⁻¹ := by
  have hb : (0 : ℝ) ≤ airmassBase z := (airmassBase_pos z).le
  have h05 : (-0.5 : ℝ) = -(1 / 2 : ℝ) := by norm_num
  rw [airmass_ag, show (1 - 0.972 * Real.sin (deg2rad z) ^ 2) = airmassBase z from rfl,
    h05, Real.rpow_neg hb, Real.sqrt_eq_rpow]

lemma sqrt_airmassBase_pos (z : ℝ) : 0 < Real.sqrt (airmassBase z) :=
  Real.sqrt_pos.mpr (airmassBase_pos z)

lemma one_le_airmass_ag (z : ℝ) : 1 ≤ airmass_ag z := by
  rw [airmass_ag_eq_inv_sqrt]
  have h1 : Real.sqrt (airmassBase z) ≤ 1 := by
    have := Real.sqrt_le_sqrt (airmassBase_le_one z)
    simpa using this
  have h2 : 0 < Real.sqrt (airmassBase z) := sqrt_airmassBase_pos z
  rw [le_inv_comm₀ one_pos h2]
  simpa using h1

lemma airmass_ag_le_six (z : ℝ) : airmass_ag z ≤ 6 := by
  rw [airmass_ag_eq_inv_sqrt]
  have h2 : 0 < Real.sqrt (airmassBase z) := sqrt_airmassBase_pos z
  have h1 : (1 / 6 : ℝ) ≤ Real.sqrt (airmassBase z) := by
    have hs := Real.sqrt_le_sqrt (show (1 / 6 : ℝ) ^ 2 ≤ airmassBase z by
      nlinarith [airmassBase_ge z])
    rwa [Real.sqrt_sq (by norm_num)] at hs
  rw [inv_le_comm₀ h2 (by norm_num)]
  linarith

lemma airmass_ag_pos (z : ℝ) : 0 < airmass_ag z :=
  lt_of_lt_of_le one_pos (one_le_airmass_ag z)

lemma airmass_ag_zero : airmass_ag 0 = 1 := by
  have h : deg2rad 0 = 0 := by simp [deg2rad]
  rw [airmass_ag, h]
  norm_num

/-- Strict monotonicity of airmass_ag on zenith angles in [0, 88] degrees. -/
lemma airmass_ag_lt_airmass_ag {z1 z2 : ℝ} (h0 : 0 ≤ z1) (h12 : z1 < z2)
    (h88 : z2 ≤ 88) : airmass_ag z1 < airmass_ag z2 := by
  have hpi : (0 : ℝ) < Real.pi := Real.pi_pos
  have ht1 : 0 ≤ deg2rad z1 := by
    unfold deg2rad; positivity
  have ht12 : deg2rad z1 < deg2rad z2 := by
    unfold deg2rad
    have : (0 : ℝ) < Real.pi / 180 := by positivity
    exact mul_lt_mul_of_pos_right h12 this
  have ht2 : deg2rad z2 ≤ Real.pi / 2 := by
    unfold deg2rad
    nlinarith [mul_nonneg (sub_nonneg.mpr h88) hpi.le]
  have hs1 : 0 ≤ Real.sin (deg2rad z1) :=
    Real.sin_nonneg_of_nonneg_of_le_pi ht1 (by linarith)
  have hmem1 : deg2rad z1 ∈ Set.Icc (-(Real.pi / 2)) (Real.pi / 2) := by
    constructor <;> [linarith; linarith]
  have hmem2 : deg2rad z2 ∈ Set.Icc (-(Real.pi / 2)) (Real.pi / 2) := by
    constructor <;> [linarith; linarith]
  have hsin : Real.sin (deg2rad z1) < Real.sin (deg2rad z2) :=
    Real.strictMonoOn_sin hmem1 hmem2 ht12
  have hsq : Real.sin (deg2rad z1) ^ 2 < Real.sin (deg2rad z2) ^ 2 := by
    exact pow_lt_pow_left₀ hsin hs1 (by norm_num)
  have hbase : airmassBase z2 < airmassBase z1 := by
    unfold airmassBase; nlinarith
  rw [airmass_ag_eq_inv_sqrt, airmass_ag_eq_inv_sqrt]
  have hsqrt : Real.sqrt (airmassBase z2) < Real.sqrt (airmassBase z1) :=
    Real.sqrt_lt_sqrt (airmassBase_pos z2).le hbase
  exact inv_strictAnti₀ (sqrt_airmassBase_pos z2) hsqrt

/-- log10 of the airmass is below 1 (the airmass never reaches 10). -/
lemma logb_airmass_lt_one (z : ℝ) : Real.logb 10 (airmass_ag z) < 1 := by
  have h1 : airmass_ag z < 10 := lt_of_le_of_lt (airmass_ag_le_six z) (by norm_num)
  have h2 : 0 < airmass_ag z := airmass_ag_pos z
  rw [Real.logb, div_lt_one (Real.log_pos (by norm_num))]
  exact Real.log_lt_log h2 h1

/-! Array layer: an embedding of the numpy ndarrays and operations used by
get_airglow, with explicit shapes, row-major flat data, the numpy
broadcasting rules, and an explicit heap of array buffers. -/

/-- Errors surfaced by the embedded numpy code.  The source only ever raises
a bare assertion (assert with no message) and numpy broadcasting errors; the
descriptive precondition error demanded by the spec is included as a
constructor so the spec's error-handling claim is statable. -/
inductive Err where
  | assertionFailed : Err
  | broadcastMismatch : Err
  | preconditionViolation : String → Err
deriving DecidableEq

/-- An embedded numpy ndarray: dimension sizes plus row-major flat data. -/
structure NDArr where
  shape : List Nat
  data : List ℝ

/-- Well-formedness: the flat data has exactly prod(shape) entries. -/
def NDArr.wf (a : NDArr) : Prop := a.data.length = a.shape.prod

/-- Combine two dimension sizes under numpy broadcasting: equal sizes stay,
a size-1 dimension stretches to the other, anything else is an error. -/
def combineDim (m n : Nat) : Option Nat :=
  if m = n then some m else if m = 1 then some n else if n = 1 then some m else none

/-- Combine two rank-aligned shapes dimension by dimension. -/
def combineShapes : List Nat → List Nat → Option (List Nat)
  | [], [] => some []
  | m :: ms, n :: ns =>
    match combineDim m n, combineShapes ms ns with
    | some d, some ds => some (d :: ds)
    | _, _ => none
  | _, _ => none

/-- Left-pad a shape with 1s up to rank r (numpy aligns trailing axes). -/
def padShape (r : Nat) (s : List Nat) : List Nat := List.replicate (r - s.length) 1 ++ s

/-- The numpy broadcast of two shapes, if they are compatible. -/
def broadcastShapes (s t : List Nat) : Option (List Nat) :=
  let r := max s.length t.length
  combineShapes (padShape r s) (padShape r t)

/-- All multi-indices of a shape, in row-major order. -/
def allIdx : List Nat → List (List Nat)
  | [] => [[]]
  | d :: ds => (List.range d).flatMap (fun i => (allIdx ds).map (fun idx => i :: idx))

/-- Row-major flattening of a multi-index. -/
def flatIdx (s idx : List Nat) : Nat :=
  (List.zip s idx).foldl (fun acc p => acc * p.1 + p.2) 0

/-- Read a broadcast operand at a multi-index of the result shape: pad the
operand's shape, clamp the coordinates of its size-1 axes to 0, and read the
flat data. -/
def bGet (a : NDArr) (r : Nat) (idx : List Nat) : ℝ :=
  let ps := padShape r a.shape
  let cl := List.zipWith (fun d i => if d = 1 then 0 else i) ps idx
  a.data.getD (flatIdx ps cl) 0

/-- An elementwise binary ufunc with numpy broadcasting. -/
def bcOp (f : ℝ → ℝ → ℝ) (a b : NDArr) : Except Err NDArr :=
  match broadcastShapes a.shape b.shape with
  | none => .error .broadcastMismatch
  | some s =>
    .ok ⟨s, (allIdx s).map (fun idx => f (bGet a s.length idx) (bGet b s.length idx))⟩

/-- numpy in-place addition t += s: the source must broadcast to exactly the
target's shape, otherwise numpy raises (the output operand cannot grow). -/
def iadd (t s : NDArr) : Except Err NDArr :=
  if broadcastShapes t.shape s.shape = some t.shape then
    .ok ⟨t.shape, (allIdx t.shape).map (fun idx =>
      bGet t t.shape.length idx + bGet s t.shape.length idx)⟩
  else .error .broadcastMismatch

/-- An elementwise unary ufunc (np.exp, unary minus): shape preserved. -/
def ndMap (g : ℝ → ℝ) (a : NDArr) : NDArr := ⟨a.shape, a.data.map g⟩

/-- Embedding of np.zeros_like. -/
def zerosLike (a : NDArr) : NDArr := ⟨a.shape, a.data.map (fun _ => 0)⟩

/-- Split flat data into the length-n rows of the trailing axis. -/
def chunksExact (n : Nat) (l : List ℝ) : List (List ℝ) :=
  (List.range (l.length / n)).map (fun i => ((l.drop (i * n)).take n))

/-- Modelled from the spec: skysim.utils.resample.resample_density (an
external collaborator whose source is not under src/).  Per the spec it maps
the trailing (wavelength) axis from the source grid to the target grid,
broadcasting over all leading dimensions; the per-row resampling map itself
is the parameter rs (target grid, source grid, source row). -/
def resampleND (rs : List ℝ → List ℝ → List ℝ → List ℝ) (lam src : List ℝ)
    (a : NDArr) : NDArr :=
  ⟨a.shape.dropLast ++ [lam.length],
   ((chunksExact (a.shape.getLastD 1) a.data).map (rs lam src)).flatten⟩

/-- numpy integer fancy indexing a[idx] along the first axis: each index
picks the corresponding subarray (a row for 2-D a, a scalar for 1-D a); the
result shape is the index shape followed by the remaining axes of a. -/
def gatherND (a : NDArr) (idxShape : List Nat) (idxs : List Nat) : NDArr :=
  let m := (a.shape.tail).prod
  ⟨idxShape ++ a.shape.tail, idxs.flatMap (fun i => (a.data.drop (i * m)).take m)⟩

/-- Embedding of np.unique: the sorted distinct values of the flat data. -/
def npUnique (xs : List ℝ) : List ℝ := (xs.insertionSort (· ≤ ·)).dedup

/-- Embedding of np.searchsorted with side=left: the number of entries of the
sorted list a that are strictly below v. -/
def searchsorted (a : List ℝ) (v : ℝ) : Nat := a.countP (fun x => decide (x < v))

/-- The heap of array buffers.  Buffer 0, 1, ... are allocated in order; the
shared atmosphere table occupies preexisting buffers. -/
def Heap : Type := List NDArr

/-- Read a buffer. -/
def hget (h : Heap) (r : Nat) : NDArr := List.getD h r ⟨[], []⟩

/-- Allocate a fresh buffer holding v; returns the new heap and the ref. -/
def halloc (h : Heap) (v : NDArr) : Heap × Nat := (List.concat h v, List.length h)

/-- Overwrite buffer r in place (numpy +=). -/
def hset (h : Heap) (r : Nat) (v : NDArr) : Heap := List.set h r v

/-- Number of buffers. -/
def hsize (h : Heap) : Nat := List.length h

/-- References of the shared atmosphere table's columns in the heap
(the structured array returned by skysim.utils.data.get('atmosphere')). -/
structure Atm where
  wavelength : Nat
  airglow_cont : Nat
  airglow_line : Nat
  trans_ma : Nat

/-- Modelled from the spec: skysim.transmission.tau0R(lam, p, H), the Rayleigh
optical depth, an external collaborator returning an array broadcastable
against the wavelength grid; modelled as an elementwise function of
wavelength with the pointwise map tR as parameter. -/
def tau0Rarr (tR : ℝ → ℝ → ℝ → ℝ) (lam : List ℝ) (p H : ℝ) : NDArr :=
  ⟨[lam.length], lam.map (fun l => tR l p H)⟩

/-- Modelled from the spec: skysim.transmission.tau0M(lam), the Mie optical
depth, elementwise in wavelength with pointwise map tM as parameter. -/
def tau0Marr (tM : ℝ → ℝ) (lam : List ℝ) : NDArr :=
  ⟨[lam.length], lam.map tM⟩

/-- Lines 110-115 of airglow.py: apply molecular absorption on the table
grid: transmission = trans_ma ** Xag; cont and line are multiplied by it.
Every numpy result is a freshly allocated buffer. -/
def absorptionStage (h : Heap) (atm : Atm) (Xag cont line : NDArr)
    (absorption : Bool) : Heap × Except Err (NDArr × NDArr) :=
  if absorption then
    match bcOp (fun t x => t ^ x) (hget h atm.trans_ma) Xag with
    | .error e => (h, .error e)
    | .ok transmission =>
      let h := (halloc h transmission).1
      match bcOp (· * ·) cont transmission with
      | .error e => (h, .error e)
      | .ok cont2 =>
        let h := (halloc h cont2).1
        match bcOp (· * ·) line transmission with
        | .error e => (h, .error e)
        | .ok line2 =>
          let h := (halloc h line2).1
          (h, .ok (cont2, line2))
  else (h, .ok (cont, line))

/-- Lines 125 and 127 of airglow.py: tau0 += f * tau0X.  The product is a
fresh buffer; the addition updates the tau0 buffer in place through hset
(the only writes in the whole pipeline). -/
def accumTau (h : Heap) (tau0Ref : Nat) (tau0 fX tau0X : NDArr) :
    Heap × Except Err NDArr :=
  match bcOp (· * ·) fX tau0X with
  | .error e => (h, .error e)
  | .ok t1 =>
    let h := (halloc h t1).1
    match iadd tau0 t1 with
    | .error e => (h, .error e)
    | .ok tau1 => (hset h tau0Ref tau1, .ok tau1)

/-- Lines 128-130 of airglow.py: scattering = exp(-tau0 * Xag); cont and
line are multiplied by it (each numpy result a fresh buffer). -/
def scatterApply (h : Heap) (tau0 Xag cont line : NDArr) :
    Heap × Except Err (NDArr × NDArr) :=
  let neg1 := ndMap (fun t => -t) tau0
  let h := (halloc h neg1).1
  match bcOp (· * ·) neg1 Xag with
  | .error e => (h, .error e)
  | .ok prod1 =>
    let h := (halloc h prod1).1
    let scat := ndMap Real.exp prod1
    let h := (halloc h scat).1
    match bcOp (· * ·) cont scat with
    | .error e => (h, .error e)
    | .ok cont2 =>
      let h := (halloc h cont2).1
      match bcOp (· * ·) line scat with
      | .error e => (h, .error e)
      | .ok line2 =>
        let h := (halloc h line2).1
        (h, .ok (cont2, line2))

/-- Lines 120-130 of airglow.py: scattering.  fR, fM = airglow_scattering(z)
elementwise; tau0 = zeros_like(cont); tau0 += fR*tau0R if Rayleigh;
tau0 += fM*tau0M if Mie; then apply exp(-tau0 * Xag) to cont and line. -/
def scatteringStage (h : Heap) (lam : List ℝ) (p H : ℝ) (Rayleigh Mie : Bool)
    (tR : ℝ → ℝ → ℝ → ℝ) (tM : ℝ → ℝ) (z Xag cont line : NDArr) :
    Heap × Except Err (NDArr × NDArr) :=
  if Rayleigh || Mie then
    let fR : NDArr := ⟨z.shape, z.data.map (fun v => (airglow_scattering v).1)⟩
    let h := (halloc h fR).1
    let fM : NDArr := ⟨z.shape, z.data.map (fun v => (airglow_scattering v).2)⟩
    let h := (halloc h fM).1
    let tau0 := zerosLike cont
    let tau0Ref := (halloc h tau0).2
    let h := (halloc h tau0).1
    let rstep : Heap × Except Err NDArr :=
      if Rayleigh then accumTau h tau0Ref tau0 fR (tau0Rarr tR lam p H)
      else (h, .ok tau0)
    match rstep with
    | (h, .error e) => (h, .error e)
    | (h, .ok tau01) =>
      let mstep : Heap × Except Err NDArr :=
        if Mie then accumTau h tau0Ref tau01 fM (tau0Marr tM lam)
        else (h, .ok tau01)
      match mstep with
      | (h, .error e) => (h, .error e)
      | (h, .ok tau02) => scatterApply h tau02 Xag cont line
  else (h, .ok (cont, line))

/-- Lines 106-130 of get_airglow: copy the baseline table columns, apply
absorption, resample both arrays to the output grid, apply scattering.  This
is the pipeline run on the (possibly deduplicated) zenith-angle array z. -/
def pipelineCore (h : Heap) (atm : Atm) (lam : List ℝ) (z : NDArr) (p H : ℝ)
    (Rayleigh Mie absorption : Bool)
    (rs : List ℝ → List ℝ → List ℝ → List ℝ)
    (tR : ℝ → ℝ → ℝ → ℝ) (tM : ℝ → ℝ) : Heap × Except Err (NDArr × NDArr) :=
  let cont := hget h atm.airglow_cont
  let h := (halloc h cont).1
  let line := hget h atm.airglow_line
  let h := (halloc h line).1
  let Xag : NDArr := ⟨z.shape, z.data.map airmass_ag⟩
  let h := (halloc h Xag).1
  match absorptionStage h atm Xag cont line absorption with
  | (h, .error e) => (h, .error e)
  | (h, .ok (cont, line)) =>
    let ag_lam := hget h atm.wavelength
    let h := (halloc h ag_lam).1
    let cont2 := resampleND rs lam ag_lam.data cont
    let h := (halloc h cont2).1
    let line2 := resampleND rs lam ag_lam.data line
    let h := (halloc h line2).1
    scatteringStage h lam p H Rayleigh Mie tR tM z Xag cont2 line2

/-- Embedding of get_airglow (airglow.py lines 59-137).  The wavelength grid
lam is the 1-D grid after np.atleast_1d; p and H are scalars.  If fewer than
3/4 of z's entries are distinct, compressed mode runs the pipeline once per
distinct zenith angle (after a bare assert that z's trailing axis has size 1)
and gathers the rows back through the searchsorted indices. -/
def get_airglow (h : Heap) (atm : Atm) (lam : List ℝ) (z : NDArr) (p H : ℝ)
    (Rayleigh Mie absorption : Bool)
    (rs : List ℝ → List ℝ → List ℝ → List ℝ)
    (tR : ℝ → ℝ → ℝ → ℝ) (tM : ℝ → ℝ) : Heap × Except Err (NDArr × NDArr) :=
  let z_unique := npUnique z.data
  if 4 * z_unique.length < 3 * z.shape.prod then
    -- assert z.shape[-1] == 1  (bare assertion, no message: line 101)
    if z.shape.getLastD 0 = 1 then
      let idx_out := z.data.map (searchsorted z_unique)
      let zC : NDArr := ⟨[z_unique.length, 1], z_unique⟩
      match pipelineCore h atm lam zC p H Rayleigh Mie absorption rs tR tM with
      | (h, .error e) => (h, .error e)
      | (h, .ok (cont, line)) =>
        let contG := gatherND cont z.shape.dropLast idx_out
        let h := (halloc h contG).1
        let lineG := gatherND line z.shape.dropLast idx_out
        let h := (halloc h lineG).1
        (h, .ok (contG, lineG))
    else (h, .error .assertionFailed)
  else
    pipelineCore h atm lam z p H Rayleigh Mie absorption rs tR tM

/-- The uncompressed evaluation strategy: the same pipeline with the
deduplication branch disabled.  This is the comparator in the spec's claim
that the compressed path is numerically identical to the uncompressed one. -/
def get_airglow_nodedup (h : Heap) (atm : Atm) (lam : List ℝ) (z : NDArr)
    (p H : ℝ) (Rayleigh Mie absorption : Bool)
    (rs : List ℝ → List ℝ → List ℝ → List ℝ)
    (tR : ℝ → ℝ → ℝ → ℝ) (tM : ℝ → ℝ) : Heap × Except Err (NDArr × NDArr) :=
  pipelineCore h atm lam z p H Rayleigh Mie absorption rs tR tM

/-! Generic list lemmas used by the broadcasting development. -/

lemma range_map_getD {α β : Type*} (l : List α) (d : α) (g : α → β) :
    (List.range l.length).map (fun k => g (l.getD k d)) = l.map g := by
  apply List.ext_getElem
  · simp
  · intro n h1 h2
    have hn : n < l.length := by simpa using h2
    simp only [List.getElem_map, List.getElem_range]
    rw [List.getD_eq_getElem l d hn]

lemma range_map_getD' {α β : Type*} {N : ℕ} (l : List α) (d : α) (g : α → β)
    (h : l.length = N) :
    (List.range N).map (fun k => g (l.getD k d)) = l.map g := by
  subst h; exact range_map_getD l d g

lemma range_map_getD₂ {α β γ : Type*} {N : ℕ} (a : List α) (b : List β)
    (da : α) (db : β) (f : α → β → γ) (ha : a.length = N) (hb : b.length = N) :
    (List.range N).map (fun k => f (a.getD k da) (b.getD k db)) =
      List.zipWith f a b := by
  apply List.ext_getElem
  · simp [ha, hb]
  · intro n h1 h2
    have hn : n < N := by simpa using h1
    have hna : n < a.length := by omega
    have hnb : n < b.length := by omega
    simp only [List.getElem_map, List.getElem_range, List.getElem_zipWith]
    rw [List.getD_eq_getElem a da hna, List.getD_eq_getElem b db hnb]

lemma foldl_flat (s i : List Nat) (h : i.length = s.length) (c : Nat) :
    (List.zip s i).foldl (fun acc p => acc * p.1 + p.2) c =
      c * s.prod + flatIdx s i := by
  induction s generalizing i c with
  | nil =>
    have : i = [] := List.length_eq_zero.mp (by simpa using h)
    subst this; simp [flatIdx]
  | cons d s' ih =>
    match i with
    | [] => simp at h
    | q :: i' =>
      have h' : i'.length = s'.length := by simpa using h
      simp only [List.zip_cons_cons, List.foldl_cons]
      have e1 := ih i' h' (c * d + q)
      have e2 : flatIdx (d :: s') (q :: i') = q * s'.prod + flatIdx s' i' := by
        rw [flatIdx]
        simp only [List.zip_cons_cons, List.foldl_cons]
        simpa using ih i' h' (0 * d + q)
      rw [e1, e2, List.prod_cons]
      ring

lemma flatIdx_cons {s i : List Nat} (h : i.length = s.length) (d q : Nat) :
    flatIdx (d :: s) (q :: i) = q * s.prod + flatIdx s i := by
  rw [flatIdx]
  simp only [List.zip_cons_cons, List.foldl_cons]
  rw [show (0 * d + q) = q by ring]
  exact foldl_flat s i h q

lemma flatIdx_concat {s i : List Nat} (h : i.length = s.length) (K j : Nat) :
    flatIdx (s ++ [K]) (i ++ [j]) = flatIdx s i * K + j := by
  rw [flatIdx, List.zip_append h.symm, List.foldl_append]
  rw [show (List.zip s i).foldl (fun acc p => acc * p.1 + p.2) 0 = flatIdx s i from rfl]
  simp

lemma flatIdx_replicate_zero (k : Nat) :
    flatIdx (List.replicate k 1) (List.replicate k 0) = 0 := by
  induction k with
  | zero => simp [flatIdx]
  | succ n ih =>
    rw [List.replicate_succ, List.replicate_succ,
      flatIdx_cons (by simp) 1 0]
    simpa using ih

lemma mem_allIdx {s : List Nat} {i : List Nat} :
    i ∈ allIdx s ↔ List.Forall₂ (· < ·) i s := by
  induction s generalizing i with
  | nil => simp [allIdx, List.forall₂_nil_right_iff]
  | cons d ds ih =>
    simp only [allIdx, List.mem_flatMap, List.mem_map, List.mem_range]
    constructor
    · rintro ⟨q, hq, j, hj, rfl⟩
      exact List.Forall₂.cons hq (ih.mp hj)
    · intro h
      match i, h with
      | q :: j, List.Forall₂.cons hq hj => exact ⟨q, hq, j, ih.mpr hj, rfl⟩

lemma length_of_mem_allIdx {s i : List Nat} (h : i ∈ allIdx s) :
    i.length = s.length :=
  (mem_allIdx.mp h).length_eq

lemma flatIdx_lt {s i : List Nat} (h : List.Forall₂ (· < ·) i s) :
    flatIdx s i < s.prod := by
  induction h with
  | nil => simp [flatIdx]
  | @cons q d i' s' hq h' ih =>
    rw [flatIdx_cons h'.length_eq]
    have h1 : q + 1 ≤ d := hq
    have h2 : (q + 1) * s'.prod ≤ d * s'.prod := Nat.mul_le_mul_right _ h1
    calc q * s'.prod + flatIdx s' i' < q * s'.prod + s'.prod := by omega
    _ = (q + 1) * s'.prod := by ring
    _ ≤ d * s'.prod := h2
    _ = (d :: s').prod := by simp

lemma range_mul_flatMap (d P : Nat) :
    List.range (d * P) =
      (List.range d).flatMap (fun q => (List.range P).map (fun k => q * P + k)) := by
  induction d with
  | zero => simp
  | succ n ih =>
    rw [Nat.succ_mul, List.range_add, List.range_succ, List.flatMap_append, ← ih]
    simp [List.flatMap, mul_comm]

lemma allIdx_map_flatIdx (s : List Nat) :
    (allIdx s).map (flatIdx s) = List.range s.prod := by
  induction s with
  | nil =>
    show [flatIdx [] []] = List.range 1
    rw [List.range_succ]
    simp [flatIdx]
  | cons d ds ih =>
    rw [allIdx, List.map_flatMap]
    have hstep : ∀ q, ((allIdx ds).map (fun idx => q :: idx)).map (flatIdx (d :: ds)) =
        (List.range ds.prod).map (fun k => q * ds.prod + k) := by
      intro q
      rw [List.map_map, ← ih, List.map_map]
      apply List.map_congr_left
      intro i hi
      simp only [Function.comp]
      rw [flatIdx_cons (length_of_mem_allIdx hi)]
    simp only [hstep]
    rw [← range_mul_flatMap d ds.prod]
    simp

lemma allIdx_map_getD {α β : Type*} (s : List Nat) (l : List α) (dflt : α)
    (g : α → β) (hl : l.length = s.prod) :
    (allIdx s).map (fun i => g (l.getD (flatIdx s i) dflt)) = l.map g := by
  have h1 : (allIdx s).map (fun i => g (l.getD (flatIdx s i) dflt)) =
      ((allIdx s).map (flatIdx s)).map (fun k => g (l.getD k dflt)) := by
    rw [List.map_map]; rfl
  rw [h1, allIdx_map_flatIdx]
  exact range_map_getD' l dflt g hl

lemma allIdx_map_getD₂ {α β γ : Type*} (s : List Nat) (a : List α) (b : List β)
    (da : α) (db : β) (f : α → β → γ)
    (ha : a.length = s.prod) (hb : b.length = s.prod) :
    (allIdx s).map
        (fun i => f (a.getD (flatIdx s i) da) (b.getD (flatIdx s i) db)) =
      List.zipWith f a b := by
  have h1 : (allIdx s).map
      (fun i => f (a.getD (flatIdx s i) da) (b.getD (flatIdx s i) db)) =
      ((allIdx s).map (flatIdx s)).map
        (fun k => f (a.getD k da) (b.getD k db)) := by
    rw [List.map_map]; rfl
  rw [h1, allIdx_map_flatIdx]
  exact range_map_getD₂ a b da db f ha hb

/-! Uniform-row flatten lemmas. -/

lemma length_flatten_uniform {α : Type*} {W : Nat} (rows : List (List α))
    (hrow : ∀ r ∈ rows, r.length = W) :
    rows.flatten.length = rows.length * W := by
  induction rows with
  | nil => simp
  | cons r rest ih =>
    have hr : r.length = W := hrow r (by simp)
    have hrest : ∀ r' ∈ rest, r'.length = W := fun r' h => hrow r' (by simp [h])
    simp [ih hrest, hr, Nat.succ_mul, Nat.add_comm]

lemma flatten_getD_uniform {W : Nat} (rows : List (List ℝ))
    (hrow : ∀ r ∈ rows, r.length = W) {m j : Nat}
    (hm : m < rows.length) (hj : j < W) :
    rows.flatten.getD (m * W + j) 0 = (rows.getD m []).getD j 0 := by
  induction rows generalizing m with
  | nil => simp at hm
  | cons r rest ih =>
    have hr : r.length = W := hrow r (by simp)
    have hrest : ∀ r' ∈ rest, r'.length = W := fun r' h => hrow r' (by simp [h])
    match m with
    | 0 =>
      simp only [Nat.zero_mul, Nat.zero_add, List.flatten_cons, List.getD_cons_zero]
      exact List.getD_append r rest.flatten 0 j (by omega)
    | Nat.succ m' =>
      have hm' : m' < rest.length := by simpa using hm
      have hidx : (m' + 1) * W + j = r.length + (m' * W + j) := by
        rw [hr]; ring
      rw [List.flatten_cons, hidx, List.getD_append_right r rest.flatten 0 _ (by omega)]
      rw [show r.length + (m' * W + j) - r.length = m' * W + j by omega, List.getD_cons_succ]
      exact ih hrest hm'

lemma drop_take_flatten_uniform {W : Nat} (rows : List (List ℝ))
    (hrow : ∀ r ∈ rows, r.length = W) {i : Nat} (hi : i < rows.length) :
    (rows.flatten.drop (i * W)).take W = rows.getD i [] := by
  induction rows generalizing i with
  | nil => simp at hi
  | cons r rest ih =>
    have hr : r.length = W := hrow r (by simp)
    have hrest : ∀ r' ∈ rest, r'.length = W := fun r' h => hrow r' (by simp [h])
    match i with
    | 0 =>
      simp only [Nat.zero_mul, List.drop_zero, List.flatten_cons, List.getD_cons_zero]
      rw [← hr, List.take_left]
    | Nat.succ i' =>
      have hi' : i' < rest.length := by simpa using hi
      have hidx : (i' + 1) * W = r.length + i' * W := by rw [hr]; ring
      rw [List.flatten_cons, hidx, List.drop_append, List.getD_cons_succ]
      exact ih hrest hi'

lemma chunksExact_flatten {W : Nat} (rows : List (List ℝ))
    (hrow : ∀ r ∈ rows, r.length = W) (hW : 0 < W) :
    chunksExact W rows.flatten = rows := by
  unfold chunksExact
  rw [length_flatten_uniform rows hrow, Nat.mul_div_cancel _ hW]
  apply List.ext_getElem
  · simp
  · intro n h1 h2
    have hn : n < rows.length := by simpa using h2
    simp only [List.getElem_map, List.getElem_range]
    rw [drop_take_flatten_uniform rows hrow hn, List.getD_eq_getElem rows [] hn]

lemma zipWith_flatten_uniform {W : Nat} (f : ℝ → ℝ → ℝ)
    (rows1 rows2 : List (List ℝ))
    (h1 : ∀ r ∈ rows1, r.length = W) (h2 : ∀ r ∈ rows2, r.length = W)
    (hlen : rows1.length = rows2.length) :
    List.zipWith f rows1.flatten rows2.flatten =
      (List.zipWith (fun a b => List.zipWith f a b) rows1 rows2).flatten := by
  induction rows1 generalizing rows2 with
  | nil =>
    have : rows2 = [] := List.length_eq_zero.mp (by simpa using hlen.symm)
    subst this; simp
  | cons r rest ih =>
    match rows2 with
    | [] => simp at hlen
    | r2 :: rest2 =>
      have hr : r.length = W := h1 r (by simp)
      have hr2 : r2.length = W := h2 r2 (by simp)
      have hrest : ∀ r' ∈ rest, r'.length = W := fun r' h => h1 r' (by simp [h])
      have hrest2 : ∀ r' ∈ rest2, r'.length = W := fun r' h => h2 r' (by simp [h])
      have hlen' : rest.length = rest2.length := by simpa using hlen
      simp only [List.flatten_cons, List.zipWith_cons_cons]
      rw [List.zipWith_append f r rest.flatten r2 rest2.flatten (by rw [hr, hr2])]
      rw [ih rest2 hrest hrest2 hlen']

/-! Shape combination lemmas. -/

lemma combineDim_self (m : Nat) : combineDim m m = some m := by
  simp [combineDim]

lemma combineDim_one_left (n : Nat) : combineDim 1 n = some n := by
  rcases eq_or_ne (1 : Nat) n with h | h <;> simp [combineDim, h]

lemma combineDim_one_right (m : Nat) : combineDim m 1 = some m := by
  rcases eq_or_ne m 1 with h | h <;> simp [combineDim, h]

lemma combineShapes_self (s : List Nat) : combineShapes s s = some s := by
  induction s with
  | nil => rfl
  | cons d ds ih => simp [combineShapes, combineDim_self, ih]

lemma combineShapes_replicate_left (s : List Nat) :
    combineShapes (List.replicate s.length 1) s = some s := by
  induction s with
  | nil => rfl
  | cons d ds ih => simp [List.replicate_succ, combineShapes, combineDim_one_left, ih]

lemma combineShapes_replicate_right (s : List Nat) :
    combineShapes s (List.replicate s.length 1) = some s := by
  induction s with
  | nil => rfl
  | cons d ds ih => simp [List.replicate_succ, combineShapes, combineDim_one_right, ih]

lemma combineShapes_app {a b s : List Nat} (h : combineShapes a b = some s)
    {m n d : Nat} (hd : combineDim m n = some d) :
    combineShapes (a ++ [m]) (b ++ [n]) = some (s ++ [d]) := by
  induction a generalizing b s with
  | nil =>
    match b with
    | [] =>
      have : s = [] := by simpa [combineShapes] using h.symm
      subst this
      simp [combineShapes, hd]
    | x :: xs => simp [combineShapes] at h
  | cons x a' ih =>
    match b with
    | [] => simp [combineShapes] at h
    | y :: b' =>
      rcases hxy : combineDim x y with _ | dxy <;> rw [combineShapes, hxy] at h
      · simp at h
      · rcases hab : combineShapes a' b' with _ | s' <;> rw [hab] at h
        · simp at h
        · simp only [Option.some.injEq] at h
          subst h
          simp only [List.cons_append, combineShapes, hxy]
          show (match some dxy, combineShapes (a' ++ [m]) (b' ++ [n]) with
            | some d, some ds => some (d :: ds)
            | _, _ => none) = some (dxy :: (s' ++ [d]))
          rw [ih hab]

lemma padShape_eq_self (s : List Nat) : padShape s.length s = s := by
  simp [padShape]

lemma padShape_succ_vec (k W : Nat) :
    padShape (k + 1) [W] = List.replicate k 1 ++ [W] := by
  simp [padShape]

lemma broadcastShapes_self (s : List Nat) : broadcastShapes s s = some s := by
  simp [broadcastShapes, Nat.max_self, padShape_eq_self, combineShapes_self]

lemma broadcastShapes_vec_concat₁ (W : Nat) (s₀ : List Nat) :
    broadcastShapes [W] (s₀ ++ [1]) = some (s₀ ++ [W]) := by
  have hlen : (s₀ ++ [1]).length = s₀.length + 1 := by simp
  have hmax : max (1 : Nat) (s₀.length + 1) = s₀.length + 1 := by omega
  rw [broadcastShapes]
  simp only [List.length_cons, List.length_nil, hlen, hmax]
  rw [padShape_succ_vec, show padShape (s₀.length + 1) (s₀ ++ [1]) = s₀ ++ [1] by
    rw [← hlen]; exact padShape_eq_self _]
  exact combineShapes_app (combineShapes_replicate_left s₀) (combineDim_one_right W)

lemma broadcastShapes_concat₁_vec (s₀ : List Nat) (W : Nat) :
    broadcastShapes (s₀ ++ [1]) [W] = some (s₀ ++ [W]) := by
  have hlen : (s₀ ++ [1]).length = s₀.length + 1 := by simp
  have hmax : max (s₀.length + 1) (1 : Nat) = s₀.length + 1 := by omega
  rw [broadcastShapes]
  simp only [List.length_cons, List.length_nil, hlen, hmax]
  rw [padShape_succ_vec, show padShape (s₀.length + 1) (s₀ ++ [1]) = s₀ ++ [1] by
    rw [← hlen]; exact padShape_eq_self _]
  exact combineShapes_app (combineShapes_replicate_right s₀) (combineDim_one_left W)

lemma broadcastShapes_concatW_concat₁ (s₀ : List Nat) (W : Nat) :
    broadcastShapes (s₀ ++ [W]) (s₀ ++ [1]) = some (s₀ ++ [W]) := by
  have hlen1 : (s₀ ++ [W]).length = s₀.length + 1 := by simp
  have hlen2 : (s₀ ++ [1]).length = s₀.length + 1 := by simp
  rw [broadcastShapes]
  simp only [hlen1, hlen2, Nat.max_self]
  rw [show padShape (s₀.length + 1) (s₀ ++ [W]) = s₀ ++ [W] by
    rw [← hlen1]; exact padShape_eq_self _]
  rw [show padShape (s₀.length + 1) (s₀ ++ [1]) = s₀ ++ [1] by
    rw [← hlen2]; exact padShape_eq_self _]
  exact combineShapes_app (combineShapes_self s₀) (combineDim_one_right W)

lemma broadcastShapes_vec_concatW (W : Nat) (s₀ : List Nat) :
    broadcastShapes [W] (s₀ ++ [W]) = some (s₀ ++ [W]) := by
  have hlen : (s₀ ++ [W]).length = s₀.length + 1 := by simp
  have hmax : max (1 : Nat) (s₀.length + 1) = s₀.length + 1 := by omega
  rw [broadcastShapes]
  simp only [List.length_cons, List.length_nil, hlen, hmax]
  rw [padShape_succ_vec, show padShape (s₀.length + 1) (s₀ ++ [W]) = s₀ ++ [W] by
    rw [← hlen]; exact padShape_eq_self _]
  exact combineShapes_app (combineShapes_replicate_left s₀) (combineDim_self W)

lemma broadcastShapes_any_scalar (S : List Nat) :
    broadcastShapes S [] = some S := by
  rw [broadcastShapes]
  simp only [List.length_nil, Nat.max_eq_left (Nat.zero_le _)]
  rw [padShape_eq_self, show padShape S.length [] = List.replicate S.length 1 by
    simp [padShape]]
  exact combineShapes_replicate_right S

/-! Reading broadcast operands at result multi-indices. -/

lemma zipWith_clip_replicate {k : Nat} {i : List Nat} (hi : i.length = k) :
    List.zipWith (fun d x => if d = 1 then 0 else x) (List.replicate k 1) i =
      List.replicate k 0 := by
  induction k generalizing i with
  | zero => simp
  | succ n ih =>
    match i with
    | [] => simp at hi
    | q :: i' =>
      have hi' : i'.length = n := by simpa using hi
      simp [List.replicate_succ, ih hi']

lemma zipWith_clip_id {s i : List Nat} (h : List.Forall₂ (· < ·) i s) :
    List.zipWith (fun d x => if d = 1 then 0 else x) s i = i := by
  induction h with
  | nil => simp
  | @cons q d i' s' hq h' ih =>
    simp only [List.zipWith_cons_cons, ih]
    rcases eq_or_ne d 1 with hd | hd
    · subst hd
      have : q = 0 := by omega
      simp [this]
    · simp [hd]

lemma bGet_vec {W : Nat} (v : List ℝ) {k : Nat} {i : List Nat}
    (hi : i.length = k) {j : Nat} (hj : j < W) :
    bGet ⟨[W], v⟩ (k + 1) (i ++ [j]) = v.getD j 0 := by
  rw [bGet]
  show v.getD (flatIdx (padShape (k + 1) [W])
    (List.zipWith _ (padShape (k + 1) [W]) (i ++ [j]))) 0 = v.getD j 0
  rw [padShape_succ_vec,
    List.zipWith_append _ _ _ _ _ (by simp [hi]),
    zipWith_clip_replicate hi]
  simp only [List.zipWith_cons_cons, List.zipWith_nil_right]
  rw [flatIdx_concat (by simp), flatIdx_replicate_zero]
  rcases eq_or_ne W 1 with hW | hW
  · subst hW
    have : j = 0 := by omega
    simp [this]
  · simp [hW]

lemma bGet_col (col : List ℝ) (s₀ : List Nat) {i : List Nat}
    (hi : List.Forall₂ (· < ·) i s₀) (j : Nat) :
    bGet ⟨s₀ ++ [1], col⟩ (s₀.length + 1) (i ++ [j]) =
      col.getD (flatIdx s₀ i) 0 := by
  rw [bGet]
  show col.getD (flatIdx (padShape (s₀.length + 1) (s₀ ++ [1]))
    (List.zipWith _ (padShape (s₀.length + 1) (s₀ ++ [1])) (i ++ [j]))) 0 = _
  rw [show padShape (s₀.length + 1) (s₀ ++ [1]) = s₀ ++ [1] by
    rw [show s₀.length + 1 = (s₀ ++ [1]).length by simp]; exact padShape_eq_self _]
  rw [List.zipWith_append _ _ _ _ _ hi.length_eq.symm, zipWith_clip_id hi]
  simp only [List.zipWith_cons_cons, List.zipWith_nil_right, if_pos rfl]
  rw [flatIdx_concat hi.length_eq]
  simp

lemma bGet_full {W : Nat} (dat : List ℝ) (s₀ : List Nat) {i : List Nat}
    (hi : List.Forall₂ (· < ·) i s₀) {j : Nat} (hj : j < W) :
    bGet ⟨s₀ ++ [W], dat⟩ (s₀.length + 1) (i ++ [j]) =
      dat.getD (flatIdx s₀ i * W + j) 0 := by
  rw [bGet]
  show dat.getD (flatIdx (padShape (s₀.length + 1) (s₀ ++ [W]))
    (List.zipWith _ (padShape (s₀.length + 1) (s₀ ++ [W])) (i ++ [j]))) 0 = _
  rw [show padShape (s₀.length + 1) (s₀ ++ [W]) = s₀ ++ [W] by
    rw [show s₀.length + 1 = (s₀ ++ [W]).length by simp]; exact padShape_eq_self _]
  rw [List.zipWith_append _ _ _ _ _ hi.length_eq.symm, zipWith_clip_id hi]
  simp only [List.zipWith_cons_cons, List.zipWith_nil_right]
  have hlast : (if W = 1 then 0 else j) = j := by
    rcases eq_or_ne W 1 with hW | hW
    · subst hW
      have hj0 : j = 0 := by omega
      simp [hj0]
    · simp [hW]
  rw [hlast, flatIdx_concat hi.length_eq]

lemma bGet_scalar (x : ℝ) {r : Nat} {idx : List Nat} (hidx : idx.length = r) :
    bGet ⟨[], [x]⟩ r idx = x := by
  rw [bGet]
  show List.getD [x] (flatIdx (padShape r [])
    (List.zipWith _ (padShape r []) idx)) 0 = x
  rw [show padShape r [] = List.replicate r 1 by simp [padShape],
    zipWith_clip_replicate hidx, flatIdx_replicate_zero]
  rfl

lemma bGet_self (a : NDArr) {i : List Nat}
    (hi : List.Forall₂ (· < ·) i a.shape) :
    bGet a a.shape.length i = a.data.getD (flatIdx a.shape i) 0 := by
  rw [bGet]
  show a.data.getD (flatIdx (padShape a.shape.length a.shape)
    (List.zipWith _ (padShape a.shape.length a.shape) i)) 0 = _
  rw [padShape_eq_self, zipWith_clip_id hi]

lemma broadcastShapes_scalar_any (S : List Nat) :
    broadcastShapes [] S = some S := by
  rw [broadcastShapes]
  simp only [List.length_nil, Nat.max_eq_right (Nat.zero_le _)]
  rw [padShape_eq_self, show padShape S.length [] = List.replicate S.length 1 by
    simp [padShape]]
  exact combineShapes_replicate_left S

/-! Evaluation lemmas for broadcast operations at the shape combinations the
pipeline uses. -/

lemma allIdx_concat (s : List Nat) (K : Nat) :
    allIdx (s ++ [K]) =
      (allIdx s).flatMap (fun i => (List.range K).map (fun j => i ++ [j])) := by
  induction s with
  | nil =>
    rw [List.nil_append,
      show allIdx [K] = (List.range K).flatMap
        (fun q => (allIdx []).map (fun idx => q :: idx)) from rfl]
    simp only [allIdx, List.map_cons, List.map_nil, List.flatMap_singleton,
      List.nil_append]
    have hsing : ∀ (l : List Nat), l.flatMap (fun q => [[q]]) =
        l.map (fun j => [j]) := by
      intro l
      induction l with
      | nil => rfl
      | cons a tl iht => simp [iht]
    exact hsing (List.range K)
  | cons d ds ih =>
    rw [List.cons_append]
    rw [show allIdx (d :: (ds ++ [K])) = (List.range d).flatMap
      (fun i => (allIdx (ds ++ [K])).map (fun idx => i :: idx)) from rfl]
    rw [show allIdx (d :: ds) = (List.range d).flatMap
      (fun i => (allIdx ds).map (fun idx => i :: idx)) from rfl]
    rw [ih]
    simp only [List.map_flatMap, List.flatMap_map, List.map_map,
      List.flatMap_assoc]
    rfl

lemma bcOp_eval_concat (f : ℝ → ℝ → ℝ) (a b : NDArr) (s₀ : List Nat) (W : Nat)
    (h : broadcastShapes a.shape b.shape = some (s₀ ++ [W])) :
    bcOp f a b = .ok ⟨s₀ ++ [W], (allIdx s₀).flatMap (fun i =>
      (List.range W).map (fun j =>
        f (bGet a (s₀.length + 1) (i ++ [j]))
          (bGet b (s₀.length + 1) (i ++ [j]))))⟩ := by
  unfold bcOp
  rw [h]
  refine congrArg Except.ok (congrArg (NDArr.mk (s₀ ++ [W])) ?_)
  rw [show (s₀ ++ [W]).length = s₀.length + 1 by simp]
  rw [allIdx_concat, List.map_flatMap]
  refine List.flatMap_congr fun i hi => ?_
  rw [List.map_map]
  rfl

lemma bcOp_vec_col (f : ℝ → ℝ → ℝ) {W : Nat} (v : List ℝ) (s₀ : List Nat)
    (col : List ℝ) (hv : v.length = W) (hcol : col.length = s₀.prod) :
    bcOp f ⟨[W], v⟩ ⟨s₀ ++ [1], col⟩ =
      .ok ⟨s₀ ++ [W], (col.map (fun x => v.map (fun t => f t x))).flatten⟩ := by
  rw [bcOp_eval_concat f _ _ s₀ W (broadcastShapes_vec_concat₁ W s₀)]
  refine congrArg Except.ok (congrArg (NDArr.mk (s₀ ++ [W])) ?_)
  have hstep : ∀ i ∈ allIdx s₀, (List.range W).map (fun j =>
      f (bGet ⟨[W], v⟩ (s₀.length + 1) (i ++ [j]))
        (bGet ⟨s₀ ++ [1], col⟩ (s₀.length + 1) (i ++ [j]))) =
      v.map (fun t => f t (col.getD (flatIdx s₀ i) 0)) := by
    intro i hi
    have hfa := mem_allIdx.mp hi
    have hmap : ∀ j ∈ List.range W,
        f (bGet ⟨[W], v⟩ (s₀.length + 1) (i ++ [j]))
          (bGet ⟨s₀ ++ [1], col⟩ (s₀.length + 1) (i ++ [j])) =
        f (v.getD j 0) (col.getD (flatIdx s₀ i) 0) := by
      intro j hj
      rw [bGet_vec v (length_of_mem_allIdx hi) (List.mem_range.mp hj),
        bGet_col col s₀ hfa j]
    rw [List.map_congr_left hmap]
    exact range_map_getD' v 0 (fun t => f t (col.getD (flatIdx s₀ i) 0)) hv
  rw [List.flatMap_congr hstep, List.flatMap_def]
  refine congrArg List.flatten ?_
  exact allIdx_map_getD s₀ col 0 (fun x => v.map (fun t => f t x)) hcol

lemma bcOp_col_vec (f : ℝ → ℝ → ℝ) {W : Nat} (col : List ℝ) (s₀ : List Nat)
    (v : List ℝ) (hv : v.length = W) (hcol : col.length = s₀.prod) :
    bcOp f ⟨s₀ ++ [1], col⟩ ⟨[W], v⟩ =
      .ok ⟨s₀ ++ [W], (col.map (fun x => v.map (fun t => f x t))).flatten⟩ := by
  rw [bcOp_eval_concat f _ _ s₀ W (broadcastShapes_concat₁_vec s₀ W)]
  refine congrArg Except.ok (congrArg (NDArr.mk (s₀ ++ [W])) ?_)
  have hstep : ∀ i ∈ allIdx s₀, (List.range W).map (fun j =>
      f (bGet ⟨s₀ ++ [1], col⟩ (s₀.length + 1) (i ++ [j]))
        (bGet ⟨[W], v⟩ (s₀.length + 1) (i ++ [j]))) =
      v.map (fun t => f (col.getD (flatIdx s₀ i) 0) t) := by
    intro i hi
    have hfa := mem_allIdx.mp hi
    have hmap : ∀ j ∈ List.range W,
        f (bGet ⟨s₀ ++ [1], col⟩ (s₀.length + 1) (i ++ [j]))
          (bGet ⟨[W], v⟩ (s₀.length + 1) (i ++ [j])) =
        f (col.getD (flatIdx s₀ i) 0) (v.getD j 0) := by
      intro j hj
      rw [bGet_vec v (length_of_mem_allIdx hi) (List.mem_range.mp hj),
        bGet_col col s₀ hfa j]
    rw [List.map_congr_left hmap]
    exact range_map_getD' v 0 (fun t => f (col.getD (flatIdx s₀ i) 0) t) hv
  rw [List.flatMap_congr hstep, List.flatMap_def]
  refine congrArg List.flatten ?_
  exact allIdx_map_getD s₀ col 0 (fun x => v.map (fun t => f x t)) hcol

lemma bcOp_vec_rows (f : ℝ → ℝ → ℝ) {W : Nat} (v : List ℝ) (s₀ : List Nat)
    (rows : List (List ℝ)) (hv : v.length = W) (hrows : rows.length = s₀.prod)
    (hrow : ∀ r ∈ rows, r.length = W) :
    bcOp f ⟨[W], v⟩ ⟨s₀ ++ [W], rows.flatten⟩ =
      .ok ⟨s₀ ++ [W], (rows.map (fun r => List.zipWith f v r)).flatten⟩ := by
  rw [bcOp_eval_concat f _ _ s₀ W (broadcastShapes_vec_concatW W s₀)]
  refine congrArg Except.ok (congrArg (NDArr.mk (s₀ ++ [W])) ?_)
  have hstep : ∀ i ∈ allIdx s₀, (List.range W).map (fun j =>
      f (bGet ⟨[W], v⟩ (s₀.length + 1) (i ++ [j]))
        (bGet ⟨s₀ ++ [W], rows.flatten⟩ (s₀.length + 1) (i ++ [j]))) =
      List.zipWith f v (rows.getD (flatIdx s₀ i) []) := by
    intro i hi
    have hfa := mem_allIdx.mp hi
    have hflt : flatIdx s₀ i < rows.length := by
      rw [hrows]; exact flatIdx_lt hfa
    have hrl : (rows.getD (flatIdx s₀ i) []).length = W := by
      rw [List.getD_eq_getElem rows [] hflt]
      exact hrow _ (List.getElem_mem hflt)
    have hmap : ∀ j ∈ List.range W,
        f (bGet ⟨[W], v⟩ (s₀.length + 1) (i ++ [j]))
          (bGet ⟨s₀ ++ [W], rows.flatten⟩ (s₀.length + 1) (i ++ [j])) =
        f (v.getD j 0) ((rows.getD (flatIdx s₀ i) []).getD j 0) := by
      intro j hj
      have hjW := List.mem_range.mp hj
      rw [bGet_vec v (length_of_mem_allIdx hi) hjW,
        bGet_full rows.flatten s₀ hfa hjW,
        flatten_getD_uniform rows hrow hflt hjW]
    rw [List.map_congr_left hmap]
    exact range_map_getD₂ v (rows.getD (flatIdx s₀ i) []) 0 0 f hv hrl
  rw [List.flatMap_congr hstep, List.flatMap_def]
  refine congrArg List.flatten ?_
  exact allIdx_map_getD s₀ rows [] (fun r => List.zipWith f v r) hrows

lemma bcOp_rows_col (f : ℝ → ℝ → ℝ) {W : Nat} (rows : List (List ℝ))
    (s₀ : List Nat) (col : List ℝ) (hrows : rows.length = s₀.prod)
    (hrow : ∀ r ∈ rows, r.length = W) (hcol : col.length = s₀.prod) :
    bcOp f ⟨s₀ ++ [W], rows.flatten⟩ ⟨s₀ ++ [1], col⟩ =
      .ok ⟨s₀ ++ [W],
        (List.zipWith (fun r x => r.map (fun t => f t x)) rows col).flatten⟩ := by
  rw [bcOp_eval_concat f _ _ s₀ W (broadcastShapes_concatW_concat₁ s₀ W)]
  refine congrArg Except.ok (congrArg (NDArr.mk (s₀ ++ [W])) ?_)
  have hstep : ∀ i ∈ allIdx s₀, (List.range W).map (fun j =>
      f (bGet ⟨s₀ ++ [W], rows.flatten⟩ (s₀.length + 1) (i ++ [j]))
        (bGet ⟨s₀ ++ [1], col⟩ (s₀.length + 1) (i ++ [j]))) =
      (rows.getD (flatIdx s₀ i) []).map (fun t => f t (col.getD (flatIdx s₀ i) 0)) := by
    intro i hi
    have hfa := mem_allIdx.mp hi
    have hflt : flatIdx s₀ i < rows.length := by
      rw [hrows]; exact flatIdx_lt hfa
    have hrl : (rows.getD (flatIdx s₀ i) []).length = W := by
      rw [List.getD_eq_getElem rows [] hflt]
      exact hrow _ (List.getElem_mem hflt)
    have hmap : ∀ j ∈ List.range W,
        f (bGet ⟨s₀ ++ [W], rows.flatten⟩ (s₀.length + 1) (i ++ [j]))
          (bGet ⟨s₀ ++ [1], col⟩ (s₀.length + 1) (i ++ [j])) =
        f ((rows.getD (flatIdx s₀ i) []).getD j 0) (col.getD (flatIdx s₀ i) 0) := by
      intro j hj
      have hjW := List.mem_range.mp hj
      rw [bGet_full rows.flatten s₀ hfa hjW,
        flatten_getD_uniform rows hrow hflt hjW, bGet_col col s₀ hfa j]
    rw [List.map_congr_left hmap]
    exact range_map_getD' (rows.getD (flatIdx s₀ i) []) 0
      (fun t => f t (col.getD (flatIdx s₀ i) 0)) hrl
  rw [List.flatMap_congr hstep, List.flatMap_def]
  refine congrArg List.flatten ?_
  exact allIdx_map_getD₂ s₀ rows col [] 0
    (fun r x => r.map (fun t => f t x)) hrows hcol

lemma bcOp_any_scalar (f : ℝ → ℝ → ℝ) (a : NDArr) (x : ℝ)
    (ha : a.data.length = a.shape.prod) :
    bcOp f a ⟨[], [x]⟩ = .ok ⟨a.shape, a.data.map (fun t => f t x)⟩ := by
  unfold bcOp
  rw [show broadcastShapes a.shape [] = some a.shape from broadcastShapes_any_scalar _]
  refine congrArg Except.ok (congrArg (NDArr.mk a.shape) ?_)
  have hstep : ∀ i ∈ allIdx a.shape,
      f (bGet a a.shape.length i) (bGet ⟨[], [x]⟩ a.shape.length i) =
      f (a.data.getD (flatIdx a.shape i) 0) x := by
    intro i hi
    rw [bGet_self a (mem_allIdx.mp hi), bGet_scalar x (length_of_mem_allIdx hi)]
  rw [List.map_congr_left hstep]
  exact allIdx_map_getD a.shape a.data 0 (fun t => f t x) ha

lemma bcOp_scalar_any (f : ℝ → ℝ → ℝ) (x : ℝ) (b : NDArr)
    (hb : b.data.length = b.shape.prod) :
    bcOp f ⟨[], [x]⟩ b = .ok ⟨b.shape, b.data.map (fun t => f x t)⟩ := by
  unfold bcOp
  rw [show broadcastShapes ([] : List Nat) b.shape = some b.shape from
    broadcastShapes_scalar_any _]
  refine congrArg Except.ok (congrArg (NDArr.mk b.shape) ?_)
  have hstep : ∀ i ∈ allIdx b.shape,
      f (bGet ⟨[], [x]⟩ b.shape.length i) (bGet b b.shape.length i) =
      f x (b.data.getD (flatIdx b.shape i) 0) := by
    intro i hi
    rw [bGet_self b (mem_allIdx.mp hi), bGet_scalar x (length_of_mem_allIdx hi)]
  rw [List.map_congr_left hstep]
  exact allIdx_map_getD b.shape b.data 0 (fun t => f x t) hb

lemma bcOp_same (f : ℝ → ℝ → ℝ) (a b : NDArr) (hab : a.shape = b.shape)
    (ha : a.data.length = a.shape.prod) (hb : b.data.length = b.shape.prod) :
    bcOp f a b = .ok ⟨a.shape, List.zipWith f a.data b.data⟩ := by
  obtain ⟨sa, da⟩ := a
  obtain ⟨sb, db⟩ := b
  simp only at hab ha hb
  subst hab
  unfold bcOp
  rw [show broadcastShapes sa sa = some sa from broadcastShapes_self _]
  refine congrArg Except.ok (congrArg (NDArr.mk sa) ?_)
  have hstep : ∀ i ∈ allIdx sa,
      f (bGet ⟨sa, da⟩ sa.length i) (bGet ⟨sa, db⟩ sa.length i) =
      f (da.getD (flatIdx sa i) 0) (db.getD (flatIdx sa i) 0) := by
    intro i hi
    rw [bGet_self ⟨sa, da⟩ (mem_allIdx.mp hi), bGet_self ⟨sa, db⟩ (mem_allIdx.mp hi)]
  rw [List.map_congr_left hstep]
  exact allIdx_map_getD₂ sa da db 0 0 f ha hb

lemma iadd_same (t s : NDArr) (hts : t.shape = s.shape)
    (ht : t.data.length = t.shape.prod) (hs : s.data.length = s.shape.prod) :
    iadd t s = .ok ⟨t.shape, List.zipWith (· + ·) t.data s.data⟩ := by
  unfold iadd
  rw [if_pos (show broadcastShapes t.shape s.shape = some t.shape by
    rw [hts]; exact broadcastShapes_self _)]
  refine congrArg Except.ok (congrArg (NDArr.mk t.shape) ?_)
  have hstep : ∀ i ∈ allIdx t.shape,
      bGet t t.shape.length i + bGet s t.shape.length i =
      t.data.getD (flatIdx t.shape i) 0 + s.data.getD (flatIdx t.shape i) 0 := by
    intro i hi
    have hfa := mem_allIdx.mp hi
    rw [bGet_self t hfa]
    have hfa2 : List.Forall₂ (· < ·) i s.shape := by rw [← hts]; exact hfa
    have hb : bGet s t.shape.length i = s.data.getD (flatIdx s.shape i) 0 := by
      rw [hts]; exact bGet_self s hfa2
    rw [hb, ← hts]
  rw [List.map_congr_left hstep]
  exact allIdx_map_getD₂ t.shape t.data s.data 0 0 (· + ·) ht (by rw [hs, hts])

/-! Heap extension: a computation only allocates fresh buffers and writes
buffers it allocated itself, so every preexisting buffer is untouched. -/

/-- h' extends h: it has at least the buffers of h, all unchanged. -/
def heapExt (h h' : Heap) : Prop :=
  hsize h ≤ hsize h' ∧ ∀ r < hsize h, hget h' r = hget h r

lemma heapExt_refl (h : Heap) : heapExt h h := ⟨le_refl _, fun _ _ => rfl⟩

lemma heapExt_trans {h1 h2 h3 : Heap} (a : heapExt h1 h2) (b : heapExt h2 h3) :
    heapExt h1 h3 :=
  ⟨a.1.trans b.1, fun r hr => (b.2 r (lt_of_lt_of_le hr a.1)).trans (a.2 r hr)⟩

lemma heapExt_halloc (h : Heap) (v : NDArr) : heapExt h (halloc h v).1 := by
  constructor
  · show hsize h ≤ (List.concat h v).length
    rw [List.length_concat]
    exact Nat.le_succ _
  · intro r hr
    show hget (List.concat h v) r = hget h r
    rw [hget, hget, List.concat_eq_append, List.getD_append _ _ _ r hr]

lemma heapExt_hset {h h2 : Heap} {r : Nat} (hext : heapExt h h2)
    (hr : hsize h ≤ r) (v : NDArr) : heapExt h (hset h2 r v) := by
  constructor
  · show hsize h ≤ (List.set h2 r v).length
    rw [List.length_set]
    exact hext.1
  · intro r' hr'
    have hne : r ≠ r' := by omega
    show hget (List.set h2 r v) r' = hget h r'
    rw [← hext.2 r' hr', hget, hget, List.getD_eq_getElem?_getD,
      List.getD_eq_getElem?_getD, List.getElem?_set_ne hne]

lemma hsize_halloc (h : Heap) (v : NDArr) :
    hsize (halloc h v).1 = hsize h + 1 := by
  show (List.concat h v).length = h.length + 1
  exact List.length_concat h v

lemma hget_halloc_fresh (h : Heap) (v : NDArr) :
    hget (halloc h v).1 (halloc h v).2 = v := by
  show hget (List.concat h v) h.length = v
  rw [hget, List.concat_eq_append, List.getD_eq_getElem?_getD]
  simp

lemma absorptionStage_heapExt (h : Heap) (atm : Atm) (Xag cont line : NDArr)
    (ab : Bool) : heapExt h (absorptionStage h atm Xag cont line ab).1 := by
  unfold absorptionStage
  cases ab with
  | false => exact heapExt_refl h
  | true =>
    rw [if_pos rfl]
    rcases hbc1 : bcOp (fun t x => t ^ x) (hget h atm.trans_ma) Xag with e1 | tr
    · exact heapExt_refl h
    · dsimp only
      rcases hbc2 : bcOp (· * ·) cont tr with e2 | c2
      · exact heapExt_halloc h tr
      · dsimp only
        rcases hbc3 : bcOp (· * ·) line tr with e3 | l2
        · exact heapExt_trans (heapExt_halloc h tr) (heapExt_halloc _ c2)
        · exact heapExt_trans (heapExt_halloc h tr)
            (heapExt_trans (heapExt_halloc _ c2) (heapExt_halloc _ l2))

lemma accumTau_heapExt {h0 h : Heap} (hext : heapExt h0 h) {tau0Ref : Nat}
    (hr : hsize h0 ≤ tau0Ref) (tau0 fX tau0X : NDArr) :
    heapExt h0 (accumTau h tau0Ref tau0 fX tau0X).1 := by
  unfold accumTau
  rcases hbc : bcOp (· * ·) fX tau0X with e | t1
  · exact hext
  · dsimp only
    rcases hia : iadd tau0 t1 with e | tau1
    · exact heapExt_trans hext (heapExt_halloc h t1)
    · exact heapExt_hset (heapExt_trans hext (heapExt_halloc h t1)) hr tau1

lemma scatterApply_heapExt (h : Heap) (tau0 Xag cont line : NDArr) :
    heapExt h (scatterApply h tau0 Xag cont line).1 := by
  unfold scatterApply
  dsimp only
  rcases hbc1 : bcOp (· * ·) (ndMap (fun t => -t) tau0) Xag with e | prod1
  · exact heapExt_halloc _ _
  · dsimp only
    rcases hbc2 : bcOp (· * ·) cont (ndMap Real.exp prod1) with e | cont2
    · exact heapExt_trans (heapExt_halloc _ _)
        (heapExt_trans (heapExt_halloc _ _) (heapExt_halloc _ _))
    · dsimp only
      rcases hbc3 : bcOp (· * ·) line (ndMap Real.exp prod1) with e | line2
      · exact heapExt_trans (heapExt_halloc _ _)
          (heapExt_trans (heapExt_halloc _ _)
            (heapExt_trans (heapExt_halloc _ _) (heapExt_halloc _ _)))
      · exact heapExt_trans (heapExt_halloc _ _)
          (heapExt_trans (heapExt_halloc _ _)
            (heapExt_trans (heapExt_halloc _ _)
              (heapExt_trans (heapExt_halloc _ _) (heapExt_halloc _ _))))

lemma scatteringStage_heapExt (h : Heap) (lam : List ℝ) (p H : ℝ)
    (Rayleigh Mie : Bool) (tR : ℝ → ℝ → ℝ → ℝ) (tM : ℝ → ℝ)
    (z Xag cont line : NDArr) :
    heapExt h (scatteringStage h lam p H Rayleigh Mie tR tM z Xag cont line).1 := by
  unfold scatteringStage
  by_cases hRM : (Rayleigh || Mie) = true
  · rw [if_pos hRM]
    dsimp only
    set fR : NDArr := ⟨z.shape, z.data.map (fun v => (airglow_scattering v).1)⟩
    set fM : NDArr := ⟨z.shape, z.data.map (fun v => (airglow_scattering v).2)⟩
    set h1 := (halloc h fR).1 with hh1
    set h2 := (halloc h1 fM).1 with hh2
    set tau0 := zerosLike cont
    set h3 := (halloc h2 tau0).1 with hh3
    set tau0Ref := (halloc h2 tau0).2 with htr
    have hext3 : heapExt h h3 :=
      heapExt_trans (heapExt_halloc h fR)
        (heapExt_trans (heapExt_halloc h1 fM) (heapExt_halloc h2 tau0))
    have hszr : hsize h ≤ tau0Ref := by
      rw [htr]
      show hsize h ≤ hsize h2
      exact (heapExt_trans (heapExt_halloc h fR) (heapExt_halloc h1 fM)).1
    have hrstep : heapExt h (if Rayleigh then
        accumTau h3 tau0Ref tau0 fR (tau0Rarr tR lam p H)
      else (h3, .ok tau0)).1 := by
      by_cases hR : Rayleigh = true
      · rw [if_pos hR]; exact accumTau_heapExt hext3 hszr _ _ _
      · rw [if_neg hR]; exact hext3
    rcases hres : (if Rayleigh then accumTau h3 tau0Ref tau0 fR (tau0Rarr tR lam p H)
      else (h3, .ok tau0)) with ⟨h4, r4⟩
    rw [hres] at hrstep
    rcases r4 with e | tau01
    · exact hrstep
    · dsimp only
      have hmstep : heapExt h (if Mie then accumTau h4 tau0Ref tau01 fM (tau0Marr tM lam)
        else (h4, .ok tau01)).1 := by
        by_cases hM : Mie = true
        · rw [if_pos hM]; exact accumTau_heapExt hrstep hszr _ _ _
        · rw [if_neg hM]; exact hrstep
      rcases hres2 : (if Mie then accumTau h4 tau0Ref tau01 fM (tau0Marr tM lam)
        else (h4, .ok tau01)) with ⟨h5, r5⟩
      rw [hres2] at hmstep
      rcases r5 with e | tau02
      · exact hmstep
      · dsimp only
        exact heapExt_trans hmstep (scatterApply_heapExt h5 tau02 Xag cont line)
  · rw [if_neg hRM]
    exact heapExt_refl h

lemma pipelineCore_heapExt (h : Heap) (atm : Atm) (lam : List ℝ) (z : NDArr)
    (p H : ℝ) (Rayleigh Mie absorption : Bool)
    (rs : List ℝ → List ℝ → List ℝ → List ℝ)
    (tR : ℝ → ℝ → ℝ → ℝ) (tM : ℝ → ℝ) :
    heapExt h (pipelineCore h atm lam z p H Rayleigh Mie absorption rs tR tM).1 := by
  unfold pipelineCore
  dsimp only
  set cont := hget h atm.airglow_cont
  set h1 := (halloc h cont).1 with hh1
  set line := hget h1 atm.airglow_line
  set h2 := (halloc h1 line).1 with hh2
  set Xag : NDArr := ⟨z.shape, z.data.map airmass_ag⟩
  set h3 := (halloc h2 Xag).1 with hh3
  have hext3 : heapExt h h3 :=
    heapExt_trans (heapExt_halloc h cont)
      (heapExt_trans (heapExt_halloc h1 line) (heapExt_halloc h2 Xag))
  have habs : heapExt h (absorptionStage h3 atm Xag cont line absorption).1 :=
    heapExt_trans hext3 (absorptionStage_heapExt h3 atm Xag cont line absorption)
  rcases hres : absorptionStage h3 atm Xag cont line absorption with ⟨h4, r4⟩
  rw [hres] at habs
  rcases r4 with e | cl
  · exact habs
  · obtain ⟨contA, lineA⟩ := cl
    dsimp only
    refine heapExt_trans habs ?_
    refine heapExt_trans (heapExt_halloc h4 (hget h4 atm.wavelength)) ?_
    refine heapExt_trans (heapExt_halloc _
      (resampleND rs lam (hget h4 atm.wavelength).data contA)) ?_
    refine heapExt_trans (heapExt_halloc _
      (resampleND rs lam (hget h4 atm.wavelength).data lineA)) ?_
    exact scatteringStage_heapExt _ lam p H Rayleigh Mie tR tM z Xag _ _

/-! np.unique and np.searchsorted. -/

lemma npUnique_sorted (xs : List ℝ) : List.Sorted (· < ·) (npUnique xs) := by
  have h1 : List.Sorted (· ≤ ·) (xs.insertionSort (· ≤ ·)) :=
    List.sorted_insertionSort (· ≤ ·) xs
  have h2 : List.Sorted (· ≤ ·) (npUnique xs) :=
    List.Pairwise.sublist (List.dedup_sublist _) h1
  have h3 : (npUnique xs).Nodup := List.nodup_dedup _
  exact (h2.and h3).imp (fun h => lt_of_le_of_ne h.1 h.2)

lemma mem_npUnique {v : ℝ} {xs : List ℝ} : v ∈ npUnique xs ↔ v ∈ xs := by
  rw [npUnique, List.mem_dedup]
  exact (List.perm_insertionSort _ xs).mem_iff

lemma searchsorted_lt_length {a : List ℝ} {v : ℝ} (hv : v ∈ a) :
    searchsorted a v < a.length := by
  refine Nat.lt_of_le_of_ne (List.countP_le_length _) fun hEq => ?_
  have := List.countP_eq_length.mp hEq v hv
  simp at this

lemma searchsorted_getD {a : List ℝ} (ha : List.Sorted (· < ·) a) {v : ℝ}
    (hv : v ∈ a) (d : ℝ) : a.getD (searchsorted a v) d = v := by
  induction a with
  | nil => simp at hv
  | cons x t ih =>
    rw [List.sorted_cons] at ha
    rw [searchsorted, List.countP_cons]
    rcases List.mem_cons.mp hv with hvx | hvt
    · subst hvx
      rw [if_neg (by simp), List.countP_eq_zero.mpr ?_]
      · simp
      · intro y hy
        simp only [decide_eq_true_eq, not_lt]
        exact (ha.1 y hy).le
    · have hxv : x < v := ha.1 v hvt
      rw [if_pos (by simpa using hxv)]
      rw [show List.countP (fun y => decide (y < v)) t + 1 =
        (List.countP (fun y => decide (y < v)) t) + 1 from rfl, List.getD_cons_succ]
      exact ih ha.2 hvt

lemma get_airglow_heapExt (h : Heap) (atm : Atm) (lam : List ℝ) (z : NDArr)
    (p H : ℝ) (Rayleigh Mie absorption : Bool)
    (rs : List ℝ → List ℝ → List ℝ → List ℝ)
    (tR : ℝ → ℝ → ℝ → ℝ) (tM : ℝ → ℝ) :
    heapExt h (get_airglow h atm lam z p H Rayleigh Mie absorption rs tR tM).1 := by
  unfold get_airglow
  by_cases hcomp : 4 * (npUnique z.data).length < 3 * z.shape.prod
  · rw [if_pos hcomp]
    by_cases hlast : z.shape.getLastD 0 = 1
    · rw [if_pos hlast]
      dsimp only
      have hcore := pipelineCore_heapExt h atm lam
        ⟨[(npUnique z.data).length, 1], npUnique z.data⟩ p H Rayleigh Mie
        absorption rs tR tM
      rcases hres : pipelineCore h atm lam
        ⟨[(npUnique z.data).length, 1], npUnique z.data⟩ p H Rayleigh Mie
        absorption rs tR tM with ⟨h4, r4⟩
      rw [hres] at hcore
      rcases r4 with e | cl
      · exact hcore
      · obtain ⟨contA, lineA⟩ := cl
        dsimp only
        refine heapExt_trans hcore ?_
        refine heapExt_trans (heapExt_halloc h4 (gatherND contA z.shape.dropLast
          (List.map (searchsorted (npUnique z.data)) z.data))) ?_
        exact heapExt_halloc _ (gatherND lineA z.shape.dropLast
          (List.map (searchsorted (npUnique z.data)) z.data))
    · rw [if_neg hlast]
      exact heapExt_refl h
  · rw [if_neg hcomp]
    exact pipelineCore_heapExt h atm lam z p H Rayleigh Mie absorption rs tR tM

lemma map_getD_searchsorted {a : List ℝ} (ha : List.Sorted (· < ·) a) {v : ℝ}
    (hv : v ∈ a) (row : ℝ → List ℝ) :
    (a.map row).getD (searchsorted a v) [] = row v := by
  have hlt := searchsorted_lt_length hv
  have hmlt : searchsorted a v < (a.map row).length := by simpa using hlt
  rw [List.getD_eq_getElem _ _ hmlt, List.getElem_map]
  have := searchsorted_getD ha hv 0
  rw [List.getD_eq_getElem _ _ hlt] at this
  rw [this]

lemma gatherND_rows {L : Nat} (u : Nat) (rows : List (List ℝ))
    (hrows : rows.length = u) (hrow : ∀ r ∈ rows, r.length = L)
    (ishape : List Nat) (idxs : List Nat) (hidx : ∀ i ∈ idxs, i < u) :
    gatherND ⟨[u, L], rows.flatten⟩ ishape idxs =
      ⟨ishape ++ [L], (idxs.map (fun i => rows.getD i [])).flatten⟩ := by
  unfold gatherND
  dsimp only
  refine congrArg₂ NDArr.mk rfl ?_
  have hstep : ∀ i ∈ idxs,
      (rows.flatten.drop (i * (([u, L] : List Nat).tail).prod)).take
        (([u, L] : List Nat).tail).prod = rows.getD i [] := by
    intro i hi
    have hiL : i < rows.length := by rw [hrows]; exact hidx i hi
    have hL : (([u, L] : List Nat).tail).prod = L := by simp
    rw [hL]
    exact drop_take_flatten_uniform rows hrow hiL
  rw [List.flatMap_congr hstep, List.flatMap_def]

/-- zipWith of two maps of the same list. -/
lemma zipWith_map₂_same {α β γ δ : Type*} (f : β → γ → δ) (g : α → β)
    (k : α → γ) (l : List α) :
    List.zipWith f (l.map g) (l.map k) = l.map (fun x => f (g x) (k x)) := by
  induction l with
  | nil => rfl
  | cons a t ih => simp [ih]

/-- Rebuild an NDArr from a known shape. -/
lemma ndarr_eta {a : NDArr} {s : List Nat} (hs : a.shape = s) :
    a = ⟨s, a.data⟩ := by
  cases a
  simp only at hs
  rw [hs]

lemma bcOp_vec_col' (f : ℝ → ℝ → ℝ) {W : Nat} (a : NDArr) (ha : a.shape = [W])
    (had : a.data.length = W) (s₀ : List Nat) (col : List ℝ)
    (hcol : col.length = s₀.prod) :
    bcOp f a ⟨s₀ ++ [1], col⟩ =
      .ok ⟨s₀ ++ [W], (col.map (fun x => a.data.map (fun t => f t x))).flatten⟩ := by
  obtain ⟨sa, da⟩ := a
  simp only at ha had
  subst ha
  exact bcOp_vec_col f da s₀ col had hcol

lemma bcOp_vec_rows' (f : ℝ → ℝ → ℝ) {W : Nat} (a : NDArr) (ha : a.shape = [W])
    (had : a.data.length = W) (s₀ : List Nat) (rows : List (List ℝ))
    (hrows : rows.length = s₀.prod) (hrow : ∀ r ∈ rows, r.length = W) :
    bcOp f a ⟨s₀ ++ [W], rows.flatten⟩ =
      .ok ⟨s₀ ++ [W], (rows.map (fun r => List.zipWith f a.data r)).flatten⟩ := by
  obtain ⟨sa, da⟩ := a
  simp only at ha had
  subst ha
  exact bcOp_vec_rows f da s₀ rows had hrows hrow

/-! Per-zenith-angle row computations: the scalar shadows of the pipeline
stages, by which the array pipeline is factored. -/

/-- Per-zenith-angle absorption: baseline row times trans_ma ** airmass. -/
def absRow (trans0 base : List ℝ) (v : ℝ) : List ℝ :=
  List.zipWith (· * ·) base (trans0.map (fun t => t ^ airmass_ag v))

/-- Per-zenith-angle scattering transform of a resampled row. -/
def scatRow (lam : List ℝ) (p H : ℝ) (Rayleigh Mie : Bool)
    (tR : ℝ → ℝ → ℝ → ℝ) (tM : ℝ → ℝ) (v : ℝ) (c2 : List ℝ) : List ℝ :=
  if Rayleigh || Mie then
    let tau0 : List ℝ := c2.map (fun _ => 0)
    let tau1 := if Rayleigh then
        List.zipWith (· + ·) tau0
          ((lam.map (fun l => tR l p H)).map
            (fun t => (airglow_scattering v).1 * t))
      else tau0
    let tau2 := if Mie then
        List.zipWith (· + ·) tau1
          ((lam.map tM).map (fun t => (airglow_scattering v).2 * t))
      else tau1
    List.zipWith (· * ·) c2
      (((tau2.map (fun t => -t)).map (fun t => t * airmass_ag v)).map Real.exp)
  else c2

/-- Full per-zenith-angle row with absorption enabled: absorb on the table
grid, resample to the output grid, apply scattering. -/
def rowPipe (rs : List ℝ → List ℝ → List ℝ → List ℝ)
    (tR : ℝ → ℝ → ℝ → ℝ) (tM : ℝ → ℝ) (lam w0 : List ℝ) (p H : ℝ)
    (Rayleigh Mie : Bool) (trans0 base : List ℝ) (v : ℝ) : List ℝ :=
  scatRow lam p H Rayleigh Mie tR tM v (rs lam w0 (absRow trans0 base v))

/-- Well-formed atmosphere table in heap h: the four columns are buffers in
range and the three value columns are 1-D of common positive length W. -/
def wfAtm (h : Heap) (atm : Atm) (W : Nat) : Prop :=
  atm.wavelength < hsize h ∧ atm.airglow_cont < hsize h ∧
  atm.airglow_line < hsize h ∧ atm.trans_ma < hsize h ∧
  (hget h atm.airglow_cont).shape = [W] ∧
  (hget h atm.airglow_cont).data.length = W ∧
  (hget h atm.airglow_line).shape = [W] ∧
  (hget h atm.airglow_line).data.length = W ∧
  (hget h atm.trans_ma).shape = [W] ∧
  (hget h atm.trans_ma).data.length = W ∧ 0 < W

/-- The absorption stage on a column zenith-angle array: each row of the
result is the absRow of the corresponding zenith angle. -/
lemma absorptionStage_val_col (h : Heap) (atm : Atm) {W : Nat}
    (htr : (hget h atm.trans_ma).shape = [W])
    (htrd : (hget h atm.trans_ma).data.length = W)
    (s₀ : List Nat) (zd : List ℝ) (hzd : zd.length = s₀.prod)
    (c0 l0 : List ℝ) (hc0 : c0.length = W) (hl0 : l0.length = W) :
    (absorptionStage h atm ⟨s₀ ++ [1], zd.map airmass_ag⟩ ⟨[W], c0⟩ ⟨[W], l0⟩
        true).2 =
      .ok (⟨s₀ ++ [W], (zd.map (absRow (hget h atm.trans_ma).data c0)).flatten⟩,
           ⟨s₀ ++ [W], (zd.map (absRow (hget h atm.trans_ma).data l0)).flatten⟩) := by
  unfold absorptionStage
  rw [if_pos rfl]
  rw [bcOp_vec_col' (fun t x => t ^ x) (hget h atm.trans_ma) htr htrd s₀
    (zd.map airmass_ag) (by simpa using hzd)]
  dsimp only
  have hrows1 : ((zd.map airmass_ag).map
      (fun x => (hget h atm.trans_ma).data.map (fun t => t ^ x))).length =
      s₀.prod := by simpa using hzd
  have hrow1 : ∀ r ∈ (zd.map airmass_ag).map
      (fun x => (hget h atm.trans_ma).data.map (fun t => t ^ x)),
      r.length = W := by
    intro r hr
    rcases List.mem_map.mp hr with ⟨x, _, rfl⟩
    simpa using htrd
  rw [bcOp_vec_rows (· * ·) c0 s₀ _ hc0 hrows1 hrow1]
  dsimp only
  rw [bcOp_vec_rows (· * ·) l0 s₀ _ hl0 hrows1 hrow1]
  dsimp only
  refine congrArg Except.ok (congrArg₂ Prod.mk ?_ ?_) <;>
    refine congrArg (NDArr.mk (s₀ ++ [W])) (congrArg List.flatten ?_) <;>
    simp [List.map_map, Function.comp, absRow]

/-- The absorption stage on a 0-d (scalar) zenith angle. -/
lemma absorptionStage_val_scalar (h : Heap) (atm : Atm) {W : Nat}
    (htr : (hget h atm.trans_ma).shape = [W])
    (htrd : (hget h atm.trans_ma).data.length = W)
    (v : ℝ) (c0 l0 : List ℝ) (hc0 : c0.length = W) (hl0 : l0.length = W) :
    (absorptionStage h atm ⟨[], [airmass_ag v]⟩ ⟨[W], c0⟩ ⟨[W], l0⟩ true).2 =
      .ok (⟨[W], absRow (hget h atm.trans_ma).data c0 v⟩,
           ⟨[W], absRow (hget h atm.trans_ma).data l0 v⟩) := by
  unfold absorptionStage
  rw [if_pos rfl]
  rw [bcOp_any_scalar (fun t x => t ^ x) (hget h atm.trans_ma) (airmass_ag v)
    (by rw [htrd, htr]; simp)]
  dsimp only
  rw [ndarr_eta htr]
  rw [bcOp_same (· * ·) ⟨[W], c0⟩ ⟨[W], (hget h atm.trans_ma).data.map
    (fun t => t ^ airmass_ag v)⟩ rfl (by simpa using hc0) (by simpa using htrd)]
  dsimp only
  rw [bcOp_same (· * ·) ⟨[W], l0⟩ ⟨[W], (hget h atm.trans_ma).data.map
    (fun t => t ^ airmass_ag v)⟩ rfl (by simpa using hl0) (by simpa using htrd)]
  dsimp only
  rfl

lemma flatten_uniform_length_prod {L : Nat} (s₀ : List Nat)
    (rows : List (List ℝ)) (hrows : rows.length = s₀.prod)
    (hrow : ∀ r ∈ rows, r.length = L) :
    rows.flatten.length = (s₀ ++ [L]).prod := by
  rw [length_flatten_uniform rows hrow, hrows]
  simp

lemma bcOp_rows_rows (f : ℝ → ℝ → ℝ) {L : Nat} (s₀ : List Nat)
    (rows1 rows2 : List (List ℝ)) (h1 : rows1.length = s₀.prod)
    (h2 : rows2.length = s₀.prod) (hr1 : ∀ r ∈ rows1, r.length = L)
    (hr2 : ∀ r ∈ rows2, r.length = L) :
    bcOp f ⟨s₀ ++ [L], rows1.flatten⟩ ⟨s₀ ++ [L], rows2.flatten⟩ =
      .ok ⟨s₀ ++ [L],
        (List.zipWith (fun a b => List.zipWith f a b) rows1 rows2).flatten⟩ := by
  rw [bcOp_same f ⟨s₀ ++ [L], rows1.flatten⟩ ⟨s₀ ++ [L], rows2.flatten⟩ rfl
    (flatten_uniform_length_prod s₀ rows1 h1 hr1)
    (flatten_uniform_length_prod s₀ rows2 h2 hr2)]
  refine congrArg Except.ok (congrArg (NDArr.mk (s₀ ++ [L])) ?_)
  exact zipWith_flatten_uniform f rows1 rows2 hr1 hr2 (h1.trans h2.symm)

/-- accumTau on the column layout: fX a column over zd, tau0X a wavelength
vector, tau0 a row-stack over zd. -/
lemma accumTau_val_col (h : Heap) (tau0Ref : Nat) {L : Nat} (s₀ : List Nat)
    (zd : List ℝ) (hzd : zd.length = s₀.prod) (trow : ℝ → List ℝ)
    (htrow : ∀ v ∈ zd, (trow v).length = L) (fcol : ℝ → ℝ) (t0 : List ℝ)
    (ht0 : t0.length = L) :
    (accumTau h tau0Ref ⟨s₀ ++ [L], (zd.map trow).flatten⟩
        ⟨s₀ ++ [1], zd.map fcol⟩ ⟨[L], t0⟩).2 =
      .ok ⟨s₀ ++ [L], (zd.map (fun v => List.zipWith (· + ·) (trow v)
        (t0.map (fun t => fcol v * t)))).flatten⟩ := by
  unfold accumTau
  rw [bcOp_col_vec (· * ·) (zd.map fcol) s₀ t0 ht0 (by simpa using hzd)]
  dsimp only
  have hres : ((zd.map fcol).map (fun x => t0.map (fun t => x * t))) =
      zd.map (fun v => t0.map (fun t => fcol v * t)) := by
    rw [List.map_map]
    rfl
  rw [hres]
  have hu1 : ∀ r ∈ zd.map trow, r.length = L := by
    intro r hr
    rcases List.mem_map.mp hr with ⟨v, hv, rfl⟩
    exact htrow v hv
  have hu2 : ∀ r ∈ zd.map (fun v => t0.map (fun t => fcol v * t)), r.length = L := by
    intro r hr
    rcases List.mem_map.mp hr with ⟨v, hv, rfl⟩
    simpa using ht0
  rw [iadd_same ⟨s₀ ++ [L], (zd.map trow).flatten⟩
    ⟨s₀ ++ [L], (zd.map (fun v => t0.map (fun t => fcol v * t))).flatten⟩ rfl
    (flatten_uniform_length_prod s₀ _ (by simpa using hzd) hu1)
    (flatten_uniform_length_prod s₀ _ (by simpa using hzd) hu2)]
  dsimp only
  refine congrArg Except.ok (congrArg (NDArr.mk (s₀ ++ [L])) ?_)
  rw [zipWith_flatten_uniform (· + ·) _ _ hu1 hu2 (by simp)]
  refine congrArg List.flatten ?_
  exact zipWith_map₂_same _ _ _ zd

/-- accumTau on the scalar layout. -/
lemma accumTau_val_scalar (h : Heap) (tau0Ref : Nat) {L : Nat}
    (t0row : List ℝ) (ht0row : t0row.length = L) (fv : ℝ) (t0 : List ℝ)
    (ht0 : t0.length = L) :
    (accumTau h tau0Ref ⟨[L], t0row⟩ ⟨[], [fv]⟩ ⟨[L], t0⟩).2 =
      .ok ⟨[L], List.zipWith (· + ·) t0row (t0.map (fun t => fv * t))⟩ := by
  unfold accumTau
  rw [bcOp_scalar_any (· * ·) fv ⟨[L], t0⟩ (by simpa using ht0)]
  dsimp only
  rw [iadd_same ⟨[L], t0row⟩ ⟨[L], t0.map (fun t => fv * t)⟩ rfl
    (by simpa using ht0row) (by simpa using ht0)]

/-- scatterApply on the column layout. -/
lemma scatterApply_val_col (h : Heap) {L : Nat} (s₀ : List Nat) (zd : List ℝ)
    (hzd : zd.length = s₀.prod) (trow crow lrow : ℝ → List ℝ)
    (htrow : ∀ v ∈ zd, (trow v).length = L)
    (hcrow : ∀ v ∈ zd, (crow v).length = L)
    (hlrow : ∀ v ∈ zd, (lrow v).length = L) :
    (scatterApply h ⟨s₀ ++ [L], (zd.map trow).flatten⟩
        ⟨s₀ ++ [1], zd.map airmass_ag⟩ ⟨s₀ ++ [L], (zd.map crow).flatten⟩
        ⟨s₀ ++ [L], (zd.map lrow).flatten⟩).2 =
      .ok (⟨s₀ ++ [L], (zd.map (fun v => List.zipWith (· * ·) (crow v)
            ((((trow v).map (fun t => -t)).map
              (fun t => t * airmass_ag v)).map Real.exp))).flatten⟩,
           ⟨s₀ ++ [L], (zd.map (fun v => List.zipWith (· * ·) (lrow v)
            ((((trow v).map (fun t => -t)).map
              (fun t => t * airmass_ag v)).map Real.exp))).flatten⟩) := by
  unfold scatterApply
  dsimp only
  have hneg : ndMap (fun t => -t)
      (⟨s₀ ++ [L], (zd.map trow).flatten⟩ : NDArr) =
      ⟨s₀ ++ [L], (zd.map (fun v => (trow v).map (fun t => -t))).flatten⟩ := by
    unfold ndMap
    refine congrArg (NDArr.mk _) ?_
    rw [List.map_flatten, List.map_map]
    rfl
  rw [hneg]
  have hnrow : ∀ r ∈ zd.map (fun v => (trow v).map (fun t => -t)),
      r.length = L := by
    intro r hr
    rcases List.mem_map.mp hr with ⟨v, hv, rfl⟩
    simpa using htrow v hv
  rw [bcOp_rows_col (· * ·) (zd.map (fun v => (trow v).map (fun t => -t))) s₀
    (zd.map airmass_ag) (by simpa using hzd) hnrow (by simpa using hzd)]
  dsimp only
  rw [zipWith_map₂_same (fun r x => r.map (fun t => t * x))
    (fun v => (trow v).map (fun t => -t)) airmass_ag zd]
  have hexp : ndMap Real.exp (⟨s₀ ++ [L], (zd.map (fun v =>
      ((trow v).map (fun t => -t)).map (fun t => t * airmass_ag v))).flatten⟩ :
        NDArr) =
      ⟨s₀ ++ [L], (zd.map (fun v =>
        (((trow v).map (fun t => -t)).map
          (fun t => t * airmass_ag v)).map Real.exp)).flatten⟩ := by
    unfold ndMap
    refine congrArg (NDArr.mk _) ?_
    rw [List.map_flatten, List.map_map]
    rfl
  rw [hexp]
  have hsrow : ∀ r ∈ zd.map (fun v =>
      (((trow v).map (fun t => -t)).map (fun t => t * airmass_ag v)).map
        Real.exp), r.length = L := by
    intro r hr
    rcases List.mem_map.mp hr with ⟨v, hv, rfl⟩
    simpa using htrow v hv
  have hcu : ∀ r ∈ zd.map crow, r.length = L := by
    intro r hr
    rcases List.mem_map.mp hr with ⟨v, hv, rfl⟩
    exact hcrow v hv
  have hlu : ∀ r ∈ zd.map lrow, r.length = L := by
    intro r hr
    rcases List.mem_map.mp hr with ⟨v, hv, rfl⟩
    exact hlrow v hv
  rw [bcOp_rows_rows (· * ·) s₀ (zd.map crow) _ (by simpa using hzd)
    (by simpa using hzd) hcu hsrow]
  dsimp only
  rw [bcOp_rows_rows (· * ·) s₀ (zd.map lrow) _ (by simpa using hzd)
    (by simpa using hzd) hlu hsrow]
  dsimp only
  refine congrArg Except.ok (congrArg₂ Prod.mk ?_ ?_) <;>
    refine congrArg (NDArr.mk (s₀ ++ [L])) (congrArg List.flatten ?_) <;>
    exact zipWith_map₂_same _ _ _ zd

/-- scatterApply on the scalar layout. -/
lemma scatterApply_val_scalar (h : Heap) {L : Nat} (v : ℝ)
    (t0row c2 l2 : List ℝ) (ht0 : t0row.length = L) (hc2 : c2.length = L)
    (hl2 : l2.length = L) :
    (scatterApply h ⟨[L], t0row⟩ ⟨[], [airmass_ag v]⟩ ⟨[L], c2⟩ ⟨[L], l2⟩).2 =
      .ok (⟨[L], List.zipWith (· * ·) c2
            (((t0row.map (fun t => -t)).map
              (fun t => t * airmass_ag v)).map Real.exp)⟩,
           ⟨[L], List.zipWith (· * ·) l2
            (((t0row.map (fun t => -t)).map
              (fun t => t * airmass_ag v)).map Real.exp)⟩) := by
  unfold scatterApply
  dsimp only
  rw [show ndMap (fun t => -t) (⟨[L], t0row⟩ : NDArr) =
    ⟨[L], t0row.map (fun t => -t)⟩ from rfl]
  rw [bcOp_any_scalar (· * ·) ⟨[L], t0row.map (fun t => -t)⟩ (airmass_ag v)
    (by simpa using ht0)]
  dsimp only
  rw [show ndMap Real.exp (⟨[L], (t0row.map (fun t => -t)).map
      (fun t => t * airmass_ag v)⟩ : NDArr) =
    ⟨[L], ((t0row.map (fun t => -t)).map (fun t => t * airmass_ag v)).map
      Real.exp⟩ from rfl]
  rw [bcOp_same (· * ·) ⟨[L], c2⟩ ⟨[L], ((t0row.map (fun t => -t)).map
      (fun t => t * airmass_ag v)).map Real.exp⟩ rfl (by simpa using hc2)
    (by simpa using ht0)]
  dsimp only
  rw [bcOp_same (· * ·) ⟨[L], l2⟩ ⟨[L], ((t0row.map (fun t => -t)).map
      (fun t => t * airmass_ag v)).map Real.exp⟩ rfl (by simpa using hl2)
    (by simpa using ht0)]

/-- The scattering stage on the column layout factors through scatRow. -/
lemma scatteringStage_val_col (h : Heap) (lam : List ℝ) (p H : ℝ)
    (Rayleigh Mie : Bool) (tR : ℝ → ℝ → ℝ → ℝ) (tM : ℝ → ℝ)
    (s₀ : List Nat) (zd : List ℝ) (hzd : zd.length = s₀.prod)
    (crow lrow : ℝ → List ℝ)
    (hcrow : ∀ v ∈ zd, (crow v).length = lam.length)
    (hlrow : ∀ v ∈ zd, (lrow v).length = lam.length) :
    (scatteringStage h lam p H Rayleigh Mie tR tM ⟨s₀ ++ [1], zd⟩
        ⟨s₀ ++ [1], zd.map airmass_ag⟩
        ⟨s₀ ++ [lam.length], (zd.map crow).flatten⟩
        ⟨s₀ ++ [lam.length], (zd.map lrow).flatten⟩).2 =
      .ok (⟨s₀ ++ [lam.length], (zd.map (fun v =>
              scatRow lam p H Rayleigh Mie tR tM v (crow v))).flatten⟩,
           ⟨s₀ ++ [lam.length], (zd.map (fun v =>
              scatRow lam p H Rayleigh Mie tR tM v (lrow v))).flatten⟩) := by
  unfold scatteringStage
  by_cases hRM : (Rayleigh || Mie) = true
  · rw [if_pos hRM]
    dsimp only
    rw [show zerosLike ⟨s₀ ++ [lam.length], (zd.map crow).flatten⟩ =
      ⟨s₀ ++ [lam.length], ((zd.map crow).flatten).map (fun _ => (0:ℝ))⟩ from rfl]
    rw [show ((zd.map crow).flatten).map (fun _ => (0:ℝ)) =
      (zd.map (fun v => (crow v).map (fun _ => (0:ℝ)))).flatten by
        rw [List.map_flatten, List.map_map]; rfl]
    rw [show tau0Rarr tR lam p H =
      ⟨[lam.length], lam.map (fun l => tR l p H)⟩ from rfl]
    rw [show tau0Marr tM lam = ⟨[lam.length], lam.map tM⟩ from rfl]
    have h0row : ∀ v ∈ zd, ((crow v).map (fun _ => (0:ℝ))).length =
        lam.length := by
      intro v hv; simpa using hcrow v hv
    by_cases hR : Rayleigh = true
    · rw [if_pos hR]
      rcases hacc : accumTau _ _ ⟨s₀ ++ [lam.length],
          (zd.map (fun v => (crow v).map (fun _ => (0:ℝ)))).flatten⟩
          ⟨s₀ ++ [1], zd.map (fun v => (airglow_scattering v).1)⟩
          ⟨[lam.length], lam.map (fun l => tR l p H)⟩ with ⟨h4, r4⟩
      have hsnd := congrArg Prod.snd hacc
      rw [accumTau_val_col _ _ s₀ zd hzd
        (fun v => (crow v).map (fun _ => (0:ℝ))) h0row
        (fun v => (airglow_scattering v).1) (lam.map (fun l => tR l p H))
        (by simp)] at hsnd
      dsimp only at hsnd
      subst hsnd
      dsimp only
      have h1row : ∀ v ∈ zd, (List.zipWith (· + ·)
          ((crow v).map (fun _ => (0:ℝ)))
          ((lam.map (fun l => tR l p H)).map
            (fun t => (airglow_scattering v).1 * t))).length = lam.length := by
        intro v hv
        simp [hcrow v hv]
      by_cases hM : Mie = true
      · rw [if_pos hM]
        rcases hacc2 : accumTau h4 _ _
            ⟨s₀ ++ [1], zd.map (fun v => (airglow_scattering v).2)⟩
            ⟨[lam.length], lam.map tM⟩ with ⟨h5, r5⟩
        have hsnd2 := congrArg Prod.snd hacc2
        rw [accumTau_val_col h4 _ s₀ zd hzd
          (fun v => List.zipWith (· + ·) ((crow v).map (fun _ => (0:ℝ)))
            ((lam.map (fun l => tR l p H)).map
              (fun t => (airglow_scattering v).1 * t))) h1row
          (fun v => (airglow_scattering v).2) (lam.map tM) (by simp)] at hsnd2
        dsimp only at hsnd2
        subst hsnd2
        dsimp only
        rw [scatterApply_val_col h5 s₀ zd hzd _ crow lrow
          (fun v hv => by simp [hcrow v hv]) hcrow hlrow]
        refine congrArg Except.ok (congrArg₂ Prod.mk ?_ ?_) <;>
          refine congrArg (NDArr.mk _) (congrArg List.flatten ?_) <;>
          refine List.map_congr_left fun v hv => ?_ <;>
          simp [scatRow, hR, hM, hcrow v hv, hlrow v hv]
      · rw [if_neg hM]
        dsimp only
        rw [scatterApply_val_col h4 s₀ zd hzd _ crow lrow h1row hcrow hlrow]
        refine congrArg Except.ok (congrArg₂ Prod.mk ?_ ?_) <;>
          refine congrArg (NDArr.mk _) (congrArg List.flatten ?_) <;>
          refine List.map_congr_left fun v hv => ?_ <;>
          simp [scatRow, hR, hM, hcrow v hv, hlrow v hv]
    · rw [if_neg hR]
      dsimp only
      by_cases hM : Mie = true
      · rw [if_pos hM]
        rcases hacc2 : accumTau _ _ ⟨s₀ ++ [lam.length],
            (zd.map (fun v => (crow v).map (fun _ => (0:ℝ)))).flatten⟩
            ⟨s₀ ++ [1], zd.map (fun v => (airglow_scattering v).2)⟩
            ⟨[lam.length], lam.map tM⟩ with ⟨h5, r5⟩
        have hsnd2 := congrArg Prod.snd hacc2
        rw [accumTau_val_col _ _ s₀ zd hzd
          (fun v => (crow v).map (fun _ => (0:ℝ))) h0row
          (fun v => (airglow_scattering v).2) (lam.map tM) (by simp)] at hsnd2
        dsimp only at hsnd2
        subst hsnd2
        dsimp only
        rw [scatterApply_val_col h5 s₀ zd hzd _ crow lrow
          (fun v hv => by simp [hcrow v hv]) hcrow hlrow]
        refine congrArg Except.ok (congrArg₂ Prod.mk ?_ ?_) <;>
          refine congrArg (NDArr.mk _) (congrArg List.flatten ?_) <;>
          refine List.map_congr_left fun v hv => ?_ <;>
          simp [scatRow, hR, hM, hcrow v hv, hlrow v hv]
      · exact absurd hRM (by simp [Bool.or_eq_true, hR, hM])
  · rw [if_neg hRM]
    have hRf : Rayleigh = false := by
      cases Rayleigh
      · rfl
      · exact absurd (by simp) hRM
    have hMf : Mie = false := by
      cases Mie
      · rfl
      · exact absurd (by simp) hRM
    refine congrArg Except.ok (congrArg₂ Prod.mk ?_ ?_) <;>
      refine congrArg (NDArr.mk _) (congrArg List.flatten ?_) <;>
      refine (List.map_congr_left fun v hv => ?_).symm <;>
      simp [scatRow, hRf, hMf, hcrow v hv, hlrow v hv]

/-- The scattering stage on the scalar layout factors through scatRow. -/
lemma scatteringStage_val_scalar (h : Heap) (lam : List ℝ) (p H : ℝ)
    (Rayleigh Mie : Bool) (tR : ℝ → ℝ → ℝ → ℝ) (tM : ℝ → ℝ) (v : ℝ)
    (c2 l2 : List ℝ) (hc2 : c2.length = lam.length)
    (hl2 : l2.length = lam.length) :
    (scatteringStage h lam p H Rayleigh Mie tR tM ⟨[], [v]⟩
        ⟨[], [airmass_ag v]⟩ ⟨[lam.length], c2⟩ ⟨[lam.length], l2⟩).2 =
      .ok (⟨[lam.length], scatRow lam p H Rayleigh Mie tR tM v c2⟩,
           ⟨[lam.length], scatRow lam p H Rayleigh Mie tR tM v l2⟩) := by
  unfold scatteringStage
  by_cases hRM : (Rayleigh || Mie) = true
  · rw [if_pos hRM]
    dsimp only [List.map]
    rw [show zerosLike ⟨[lam.length], c2⟩ =
      ⟨[lam.length], c2.map (fun _ => (0:ℝ))⟩ from rfl]
    rw [show tau0Rarr tR lam p H =
      ⟨[lam.length], lam.map (fun l => tR l p H)⟩ from rfl]
    rw [show tau0Marr tM lam = ⟨[lam.length], lam.map tM⟩ from rfl]
    by_cases hR : Rayleigh = true
    · rw [if_pos hR]
      rcases hacc : accumTau _ _ ⟨[lam.length], c2.map (fun _ => (0:ℝ))⟩
          ⟨[], [(airglow_scattering v).1]⟩
          ⟨[lam.length], lam.map (fun l => tR l p H)⟩ with ⟨h4, r4⟩
      have hsnd := congrArg Prod.snd hacc
      rw [accumTau_val_scalar _ _ (c2.map (fun _ => (0:ℝ)))
        (by simpa using hc2) ((airglow_scattering v).1)
        (lam.map (fun l => tR l p H)) (by simp)] at hsnd
      dsimp only at hsnd
      subst hsnd
      dsimp only
      by_cases hM : Mie = true
      · rw [if_pos hM]
        rcases hacc2 : accumTau h4 _ _ ⟨[], [(airglow_scattering v).2]⟩
            ⟨[lam.length], lam.map tM⟩ with ⟨h5, r5⟩
        have hsnd2 := congrArg Prod.snd hacc2
        rw [accumTau_val_scalar h4 _ _ (by simp [hc2])
          ((airglow_scattering v).2) (lam.map tM) (by simp)] at hsnd2
        dsimp only at hsnd2
        subst hsnd2
        dsimp only
        rw [scatterApply_val_scalar h5 v _ c2 l2 (by simp [hc2]) hc2 hl2]
        refine congrArg Except.ok (congrArg₂ Prod.mk ?_ ?_) <;>
          refine congrArg (NDArr.mk _) ?_ <;>
          simp [scatRow, hR, hM, hc2, hl2]
      · rw [if_neg hM]
        dsimp only
        rw [scatterApply_val_scalar h4 v _ c2 l2 (by simp [hc2]) hc2 hl2]
        refine congrArg Except.ok (congrArg₂ Prod.mk ?_ ?_) <;>
          refine congrArg (NDArr.mk _) ?_ <;>
          simp [scatRow, hR, hM, hc2, hl2]
    · rw [if_neg hR]
      dsimp only
      by_cases hM : Mie = true
      · rw [if_pos hM]
        rcases hacc2 : accumTau _ _ ⟨[lam.length], c2.map (fun _ => (0:ℝ))⟩
            ⟨[], [(airglow_scattering v).2]⟩
            ⟨[lam.length], lam.map tM⟩ with ⟨h5, r5⟩
        have hsnd2 := congrArg Prod.snd hacc2
        rw [accumTau_val_scalar _ _ (c2.map (fun _ => (0:ℝ)))
          (by simpa using hc2) ((airglow_scattering v).2)
          (lam.map tM) (by simp)] at hsnd2
        dsimp only at hsnd2
        subst hsnd2
        dsimp only
        rw [scatterApply_val_scalar h5 v _ c2 l2 (by simp [hc2]) hc2 hl2]
        refine congrArg Except.ok (congrArg₂ Prod.mk ?_ ?_) <;>
          refine congrArg (NDArr.mk _) ?_ <;>
          simp [scatRow, hR, hM, hc2, hl2]
      · exact absurd hRM (by simp [Bool.or_eq_true, hR, hM])
  · rw [if_neg hRM]
    have hRf : Rayleigh = false := by
      cases Rayleigh
      · rfl
      · exact absurd (by simp) hRM
    have hMf : Mie = false := by
      cases Mie
      · rfl
      · exact absurd (by simp) hRM
    refine congrArg Except.ok (congrArg₂ Prod.mk ?_ ?_) <;>
      refine congrArg (NDArr.mk _) ?_ <;>
      simp [scatRow, hRf, hMf]

lemma chunksExact_self {W : Nat} (c : List ℝ) (hc : c.length = W)
    (hW : 0 < W) : chunksExact W c = [c] := by
  have h2 : ([c] : List (List ℝ)).flatten = c := by simp
  calc chunksExact W c = chunksExact W ([c] : List (List ℝ)).flatten := by
        rw [h2]
  _ = [c] := chunksExact_flatten [c]
        (by intro r hr; rw [List.mem_singleton] at hr; rw [hr, hc]) hW

lemma resampleND_rows {W : Nat} (rs : List ℝ → List ℝ → List ℝ → List ℝ)
    (lam src : List ℝ) (s₀ : List Nat) (rows : List (List ℝ))
    (hrow : ∀ r ∈ rows, r.length = W) (hW : 0 < W) :
    resampleND rs lam src ⟨s₀ ++ [W], rows.flatten⟩ =
      ⟨s₀ ++ [lam.length], (rows.map (rs lam src)).flatten⟩ := by
  unfold resampleND
  refine congrArg₂ NDArr.mk ?_ ?_
  · rw [show (⟨s₀ ++ [W], rows.flatten⟩ : NDArr).shape = s₀ ++ [W] from rfl,
      List.dropLast_concat]
  · rw [show (⟨s₀ ++ [W], rows.flatten⟩ : NDArr).shape = s₀ ++ [W] from rfl,
      List.getLastD_concat]
    rw [show (⟨s₀ ++ [W], rows.flatten⟩ : NDArr).data = rows.flatten from rfl,
      chunksExact_flatten rows hrow hW]

lemma resampleND_vec {W : Nat} (rs : List ℝ → List ℝ → List ℝ → List ℝ)
    (lam src : List ℝ) (c : List ℝ) (hc : c.length = W) (hW : 0 < W) :
    resampleND rs lam src ⟨[W], c⟩ = ⟨[lam.length], rs lam src c⟩ := by
  unfold resampleND
  refine congrArg₂ NDArr.mk rfl ?_
  rw [show (⟨[W], c⟩ : NDArr).data = c from rfl,
    show (⟨[W], c⟩ : NDArr).shape.getLastD 1 = W from rfl,
    chunksExact_self c hc hW]
  simp

/-- The full pipeline on a column zenith-angle array with absorption enabled
factors through rowPipe. -/
lemma pipelineCore_val_col (h : Heap) (atm : Atm) {W : Nat}
    (hwf : wfAtm h atm W) (lam : List ℝ) (s₀ : List Nat) (zd : List ℝ)
    (hzd : zd.length = s₀.prod) (p H : ℝ) (Rayleigh Mie : Bool)
    (rs : List ℝ → List ℝ → List ℝ → List ℝ)
    (hrs : ∀ src vals, (rs lam src vals).length = lam.length)
    (tR : ℝ → ℝ → ℝ → ℝ) (tM : ℝ → ℝ) :
    (pipelineCore h atm lam ⟨s₀ ++ [1], zd⟩ p H Rayleigh Mie true rs tR tM).2 =
      .ok (⟨s₀ ++ [lam.length], (zd.map (rowPipe rs tR tM lam
              (hget h atm.wavelength).data p H Rayleigh Mie
              (hget h atm.trans_ma).data
              (hget h atm.airglow_cont).data)).flatten⟩,
           ⟨s₀ ++ [lam.length], (zd.map (rowPipe rs tR tM lam
              (hget h atm.wavelength).data p H Rayleigh Mie
              (hget h atm.trans_ma).data
              (hget h atm.airglow_line).data)).flatten⟩) := by
  obtain ⟨hwr, hcr, hlr, htr, hcs, hcd, hls, hld, hts, htd, hWpos⟩ := hwf
  unfold pipelineCore
  dsimp only
  have e_line : hget (halloc h (hget h atm.airglow_cont)).1 atm.airglow_line =
      hget h atm.airglow_line := (heapExt_halloc h _).2 _ hlr
  rw [e_line, ndarr_eta hcs, ndarr_eta hls]
  have hext3 : heapExt h (halloc (halloc (halloc h
      ⟨[W], (hget h atm.airglow_cont).data⟩).1
      ⟨[W], (hget h atm.airglow_line).data⟩).1
      ⟨s₀ ++ [1], zd.map airmass_ag⟩).1 :=
    heapExt_trans (heapExt_halloc _ _)
      (heapExt_trans (heapExt_halloc _ _) (heapExt_halloc _ _))
  have e_tr3 : hget (halloc (halloc (halloc h
      ⟨[W], (hget h atm.airglow_cont).data⟩).1
      ⟨[W], (hget h atm.airglow_line).data⟩).1
      ⟨s₀ ++ [1], zd.map airmass_ag⟩).1 atm.trans_ma =
      hget h atm.trans_ma := hext3.2 _ htr
  rcases habs : absorptionStage (halloc (halloc (halloc h
      ⟨[W], (hget h atm.airglow_cont).data⟩).1
      ⟨[W], (hget h atm.airglow_line).data⟩).1
      ⟨s₀ ++ [1], zd.map airmass_ag⟩).1 atm ⟨s₀ ++ [1], zd.map airmass_ag⟩
      ⟨[W], (hget h atm.airglow_cont).data⟩
      ⟨[W], (hget h atm.airglow_line).data⟩ true with ⟨h4, r4⟩
  have hsnd := congrArg Prod.snd habs
  rw [absorptionStage_val_col _ atm (by rw [e_tr3]; exact hts)
    (by rw [e_tr3]; exact htd) s₀ zd hzd _ _ hcd hld, e_tr3] at hsnd
  dsimp only at hsnd
  subst hsnd
  dsimp only
  have hext4 : heapExt h h4 := by
    have hst := absorptionStage_heapExt (halloc (halloc (halloc h
      ⟨[W], (hget h atm.airglow_cont).data⟩).1
      ⟨[W], (hget h atm.airglow_line).data⟩).1
      ⟨s₀ ++ [1], zd.map airmass_ag⟩).1 atm ⟨s₀ ++ [1], zd.map airmass_ag⟩
      ⟨[W], (hget h atm.airglow_cont).data⟩
      ⟨[W], (hget h atm.airglow_line).data⟩ true
    rw [habs] at hst
    exact heapExt_trans hext3 hst
  have e_w : hget h4 atm.wavelength = hget h atm.wavelength :=
    hext4.2 _ hwr
  rw [e_w]
  have harowc : ∀ r ∈ zd.map (absRow (hget h atm.trans_ma).data
      (hget h atm.airglow_cont).data), r.length = W := by
    intro r hr
    rcases List.mem_map.mp hr with ⟨v, hv, rfl⟩
    simp [absRow, htd, hcd]
  have harowl : ∀ r ∈ zd.map (absRow (hget h atm.trans_ma).data
      (hget h atm.airglow_line).data), r.length = W := by
    intro r hr
    rcases List.mem_map.mp hr with ⟨v, hv, rfl⟩
    simp [absRow, htd, hld]
  rw [resampleND_rows rs lam _ s₀ _ harowc hWpos,
    resampleND_rows rs lam _ s₀ _ harowl hWpos]
  have e_comp_c : (zd.map (absRow (hget h atm.trans_ma).data
      (hget h atm.airglow_cont).data)).map (rs lam (hget h atm.wavelength).data) =
      zd.map (fun v => rs lam (hget h atm.wavelength).data
        (absRow (hget h atm.trans_ma).data (hget h atm.airglow_cont).data v)) := by
    rw [List.map_map]
    rfl
  have e_comp_l : (zd.map (absRow (hget h atm.trans_ma).data
      (hget h atm.airglow_line).data)).map (rs lam (hget h atm.wavelength).data) =
      zd.map (fun v => rs lam (hget h atm.wavelength).data
        (absRow (hget h atm.trans_ma).data (hget h atm.airglow_line).data v)) := by
    rw [List.map_map]
    rfl
  rw [e_comp_c, e_comp_l]
  rw [scatteringStage_val_col _ lam p H Rayleigh Mie tR tM s₀ zd hzd _ _
    (fun v _ => hrs _ _) (fun v _ => hrs _ _)]
  rfl

/-- The full pipeline on a 0-d (scalar) zenith angle with absorption enabled
computes exactly one rowPipe. -/
lemma pipelineCore_val_scalar (h : Heap) (atm : Atm) {W : Nat}
    (hwf : wfAtm h atm W) (lam : List ℝ) (v : ℝ) (p H : ℝ)
    (Rayleigh Mie : Bool) (rs : List ℝ → List ℝ → List ℝ → List ℝ)
    (hrs : ∀ src vals, (rs lam src vals).length = lam.length)
    (tR : ℝ → ℝ → ℝ → ℝ) (tM : ℝ → ℝ) :
    (pipelineCore h atm lam ⟨[], [v]⟩ p H Rayleigh Mie true rs tR tM).2 =
      .ok (⟨[lam.length], rowPipe rs tR tM lam
              (hget h atm.wavelength).data p H Rayleigh Mie
              (hget h atm.trans_ma).data (hget h atm.airglow_cont).data v⟩,
           ⟨[lam.length], rowPipe rs tR tM lam
              (hget h atm.wavelength).data p H Rayleigh Mie
              (hget h atm.trans_ma).data (hget h atm.airglow_line).data v⟩) := by
  obtain ⟨hwr, hcr, hlr, htr, hcs, hcd, hls, hld, hts, htd, hWpos⟩ := hwf
  unfold pipelineCore
  dsimp only
  have e_line : hget (halloc h (hget h atm.airglow_cont)).1 atm.airglow_line =
      hget h atm.airglow_line := (heapExt_halloc h _).2 _ hlr
  rw [e_line, ndarr_eta hcs, ndarr_eta hls]
  rw [show (List.map airmass_ag [v]) = [airmass_ag v] from rfl]
  have hext3 : heapExt h (halloc (halloc (halloc h
      ⟨[W], (hget h atm.airglow_cont).data⟩).1
      ⟨[W], (hget h atm.airglow_line).data⟩).1
      ⟨[], [airmass_ag v]⟩).1 :=
    heapExt_trans (heapExt_halloc _ _)
      (heapExt_trans (heapExt_halloc _ _) (heapExt_halloc _ _))
  have e_tr3 : hget (halloc (halloc (halloc h
      ⟨[W], (hget h atm.airglow_cont).data⟩).1
      ⟨[W], (hget h atm.airglow_line).data⟩).1
      ⟨[], [airmass_ag v]⟩).1 atm.trans_ma =
      hget h atm.trans_ma := hext3.2 _ htr
  rcases habs : absorptionStage (halloc (halloc (halloc h
      ⟨[W], (hget h atm.airglow_cont).data⟩).1
      ⟨[W], (hget h atm.airglow_line).data⟩).1
      ⟨[], [airmass_ag v]⟩).1 atm ⟨[], [airmass_ag v]⟩
      ⟨[W], (hget h atm.airglow_cont).data⟩
      ⟨[W], (hget h atm.airglow_line).data⟩ true with ⟨h4, r4⟩
  have hsnd := congrArg Prod.snd habs
  rw [absorptionStage_val_scalar _ atm (by rw [e_tr3]; exact hts)
    (by rw [e_tr3]; exact htd) v _ _ hcd hld, e_tr3] at hsnd
  dsimp only at hsnd
  subst hsnd
  dsimp only
  have hext4 : heapExt h h4 := by
    have hst := absorptionStage_heapExt (halloc (halloc (halloc h
      ⟨[W], (hget h atm.airglow_cont).data⟩).1
      ⟨[W], (hget h atm.airglow_line).data⟩).1
      ⟨[], [airmass_ag v]⟩).1 atm ⟨[], [airmass_ag v]⟩
      ⟨[W], (hget h atm.airglow_cont).data⟩
      ⟨[W], (hget h atm.airglow_line).data⟩ true
    rw [habs] at hst
    exact heapExt_trans hext3 hst
  have e_w : hget h4 atm.wavelength = hget h atm.wavelength :=
    hext4.2 _ hwr
  rw [e_w]
  rw [resampleND_vec rs lam _ _ (by simp [absRow, htd, hcd]) hWpos,
    resampleND_vec rs lam _ _ (by simp [absRow, htd, hld]) hWpos]
  rw [scatteringStage_val_scalar _ lam p H Rayleigh Mie tR tM v _ _
    (hrs _ _) (hrs _ _)]
  rfl

lemma scatRow_length (lam : List ℝ) (p H : ℝ) (Rayleigh Mie : Bool)
    (tR : ℝ → ℝ → ℝ → ℝ) (tM : ℝ → ℝ) (v : ℝ) (c2 : List ℝ)
    (hc2 : c2.length = lam.length) :
    (scatRow lam p H Rayleigh Mie tR tM v c2).length = lam.length := by
  simp only [scatRow]
  split_ifs <;> simp [hc2]

lemma rowPipe_length (rs : List ℝ → List ℝ → List ℝ → List ℝ)
    (tR : ℝ → ℝ → ℝ → ℝ) (tM : ℝ → ℝ) (lam w0 : List ℝ) (p H : ℝ)
    (Rayleigh Mie : Bool) (trans0 base : List ℝ) (v : ℝ)
    (hrs : ∀ src vals, (rs lam src vals).length = lam.length) :
    (rowPipe rs tR tM lam w0 p H Rayleigh Mie trans0 base v).length =
      lam.length :=
  scatRow_length lam p H Rayleigh Mie tR tM v _ (hrs _ _)

/-- With absorption enabled, get_airglow on any zenith-angle array with a
trailing singleton axis returns the same continuum and line arrays as the
pipeline without deduplication, whether or not compressed mode triggers. -/
lemma get_airglow_eq_nodedup (h : Heap) (atm : Atm) {W : Nat}
    (hwf : wfAtm h atm W) (lam : List ℝ) (s₀ : List Nat) (zd : List ℝ)
    (hzd : zd.length = s₀.prod) (p H : ℝ) (Rayleigh Mie : Bool)
    (rs : List ℝ → List ℝ → List ℝ → List ℝ)
    (hrs : ∀ src vals, (rs lam src vals).length = lam.length)
    (tR : ℝ → ℝ → ℝ → ℝ) (tM : ℝ → ℝ) :
    (get_airglow h atm lam ⟨s₀ ++ [1], zd⟩ p H Rayleigh Mie true rs tR tM).2 =
      (get_airglow_nodedup h atm lam ⟨s₀ ++ [1], zd⟩ p H Rayleigh Mie true
        rs tR tM).2 := by
  unfold get_airglow get_airglow_nodedup
  dsimp only
  by_cases hcomp : 4 * (npUnique zd).length < 3 * (s₀ ++ [1]).prod
  · rw [if_pos hcomp]
    have hlast : (s₀ ++ [1]).getLastD 0 = 1 := List.getLastD_concat _ _ _
    rw [if_pos hlast]
    rw [show ([(npUnique zd).length, 1] : List Nat) =
      [(npUnique zd).length] ++ [1] from rfl]
    rcases hres : pipelineCore h atm lam
        ⟨[(npUnique zd).length] ++ [1], npUnique zd⟩ p H Rayleigh Mie true
        rs tR tM with ⟨h4, r4⟩
    have hsnd := congrArg Prod.snd hres
    rw [pipelineCore_val_col h atm hwf lam [(npUnique zd).length]
      (npUnique zd) (by simp) p H Rayleigh Mie rs hrs tR tM] at hsnd
    dsimp only at hsnd
    subst hsnd
    dsimp only
    rw [pipelineCore_val_col h atm hwf lam s₀ zd hzd p H Rayleigh Mie rs
      hrs tR tM]
    have hrowlen : ∀ base : List ℝ, ∀ r ∈ (npUnique zd).map
        (rowPipe rs tR tM lam (hget h atm.wavelength).data p H Rayleigh Mie
          (hget h atm.trans_ma).data base), r.length = lam.length := by
      intro base r hr
      rcases List.mem_map.mp hr with ⟨v, hv, rfl⟩
      exact rowPipe_length rs tR tM lam _ p H Rayleigh Mie _ base v
        (fun src vals => hrs src vals)
    have hidx : ∀ i ∈ zd.map (searchsorted (npUnique zd)),
        i < (npUnique zd).length := by
      intro i hi
      rcases List.mem_map.mp hi with ⟨v, hv, rfl⟩
      exact searchsorted_lt_length (mem_npUnique.mpr hv)
    rw [show ([(npUnique zd).length] ++ [lam.length] : List Nat) =
      [(npUnique zd).length, lam.length] from rfl]
    have hdl : (s₀ ++ [1]).dropLast = s₀ := by
      simp
    rw [hdl]
    rw [gatherND_rows (npUnique zd).length _ (by simp) (hrowlen _) s₀ _ hidx,
      gatherND_rows (npUnique zd).length _ (by simp) (hrowlen _) s₀ _ hidx]
    refine congrArg Except.ok (congrArg₂ Prod.mk ?_ ?_) <;>
      refine congrArg (NDArr.mk _) (congrArg List.flatten ?_) <;>
      · rw [List.map_map]
        refine List.map_congr_left fun v hv => ?_
        exact map_getD_searchsorted (npUnique_sorted zd)
          (mem_npUnique.mpr hv) _
  · rw [if_neg hcomp]

/-! Concrete demonstration data used by the claim witnesses and
counterexamples: small atmosphere tables, the identity-like resampler, and
vanishing optical-depth collaborators. -/

/-- A heap holding a one-bin atmosphere table: wavelength [500], continuum
[2], line [3], molecular transmission [1/2]. -/
def demoHeap : Heap :=
  [⟨[1], [500]⟩, ⟨[1], [2]⟩, ⟨[1], [3]⟩, ⟨[1], [1/2]⟩]

/-- The table refs into demoHeap (and demoHeap2). -/
def demoAtm : Atm := ⟨0, 1, 2, 3⟩

/-- A heap holding a two-bin atmosphere table. -/
def demoHeap2 : Heap :=
  [⟨[2], [500, 600]⟩, ⟨[2], [2, 2]⟩, ⟨[2], [3, 3]⟩, ⟨[2], [1/2, 1/2]⟩]

/-- A resampler stand-in returning 1 at every target wavelength; it has the
right output length for every input. -/
def rsConst : List ℝ → List ℝ → List ℝ → List ℝ :=
  fun lam _ _ => lam.map (fun _ => 1)

/-- A vanishing Rayleigh optical depth collaborator. -/
def tR0 : ℝ → ℝ → ℝ → ℝ := fun _ _ _ => 0

/-- A vanishing Mie optical depth collaborator. -/
def tM0 : ℝ → ℝ := fun _ => 0

lemma wfAtm_demo : wfAtm demoHeap demoAtm 1 := by
  refine ⟨?_, ?_, ?_, ?_, ?_, ?_, ?_, ?_, ?_, ?_, ?_⟩ <;>
    first
    | rfl
    | decide

lemma rsConst_length (lam src vals : List ℝ) :
    (rsConst lam src vals).length = lam.length := by
  simp [rsConst]

/-- np.unique of a constant array is the singleton of its value. -/
lemma npUnique_replicate (n : Nat) (hn : 0 < n) (x : ℝ) :
    npUnique (List.replicate n x) = [x] := by
  have hs := npUnique_sorted (List.replicate n x)
  have hmem : ∀ v, v ∈ npUnique (List.replicate n x) ↔ v = x := by
    intro v
    rw [mem_npUnique, List.mem_replicate]
    exact ⟨fun h => h.2, fun h => ⟨Nat.pos_iff_ne_zero.mp hn, h⟩⟩
  cases hu : npUnique (List.replicate n x) with
  | nil =>
    exfalso
    have hx := (hmem x).mpr rfl
    rw [hu] at hx
    exact List.not_mem_nil x hx
  | cons a t =>
    have ha : a = x := (hmem a).mp (hu ▸ List.mem_cons_self a t)
    cases t with
    | nil => rw [ha]
    | cons b t2 =>
      exfalso
      have hb : b = x :=
        (hmem b).mp (hu ▸ List.mem_cons_of_mem a (List.mem_cons_self b t2))
      rw [hu, List.sorted_cons] at hs
      have hab : a < b := hs.1 b (List.mem_cons_self b t2)
      rw [ha, hb] at hab
      exact lt_irrefl x hab

/-- np.unique of a strictly sorted array is the array itself. -/
lemma npUnique_sorted_self (l : List ℝ) (hl : List.Sorted (· < ·) l) :
    npUnique l = l := by
  unfold npUnique
  rw [List.Sorted.insertionSort_eq (hl.imp le_of_lt),
    List.dedup_eq_self.mpr hl.nodup]

/-! The claim theorems. -/

/-- C6 (counterexample to the claimed singularity): at the zenith angle
88.7 degrees, the point the claim places in the singular region, the base
1 - 0.972 sin^2 of airmass_ag is not zero but at least 0.028, the airmass is
finite (at most 6), and sin^2 never reaches the claimed critical value
1/0.972 since that exceeds 1. -/
theorem C6_counterexample :
    airmassBase 88.7 ≠ 0 ∧ (0.028 : ℝ) ≤ airmassBase 88.7 ∧
      airmass_ag 88.7 ≤ 6 ∧ Real.sin (deg2rad 88.7) ^ 2 < 1 / 0.972 :=
  ⟨(airmassBase_pos 88.7).ne', airmassBase_ge 88.7, airmass_ag_le_six 88.7,
    lt_of_le_of_lt (Real.sin_sq_le_one _) (by norm_num)⟩

/-- C6 (amended): airmass_ag has no singularity at any real zenith angle:
the base 1 - 0.972 sin^2(z_rad) is bounded below by 0.028 and never
vanishes, and airmass_ag z always lies in the interval [1, 6]. -/
theorem C6_airmass_no_singularity :
    ∀ z : ℝ, (0.028 : ℝ) ≤ airmassBase z ∧ airmassBase z ≠ 0 ∧
      1 ≤ airmass_ag z ∧ airmass_ag z ≤ 6 :=
  fun z => ⟨airmassBase_ge z, (airmassBase_pos z).ne', one_le_airmass_ag z,
    airmass_ag_le_six z⟩

/-- C7: airglow_scattering computes x = log10(airmass_ag z) and returns
exactly the pair (1.669 x - 0.146, 1.732 x - 0.318); in particular at z = 0
it returns exactly (-0.146, -0.318). -/
theorem C7_scattering_formula :
    (∀ z : ℝ, airglow_scattering z =
      (1.669 * Real.logb 10 (airmass_ag z) - 0.146,
       1.732 * Real.logb 10 (airmass_ag z) - 0.318)) ∧
    airglow_scattering 0 = (-0.146, -0.318) := by
  constructor
  · intro z
    rfl
  · unfold airglow_scattering
    rw [airmass_ag_zero, Real.logb_one]
    norm_num

/-- C8: the airglow airmass is at least 1 at every zenith angle (in
particular on the valid domain 0 ≤ z < 88.7 the claim names), and
airmass_ag 0 = 1 holds exactly. -/
theorem C8_airmass_ge_one :
    (∀ z : ℝ, 1 ≤ airmass_ag z) ∧ airmass_ag 0 = 1 :=
  ⟨one_le_airmass_ag, airmass_ag_zero⟩

/-- C9: airmass_ag is strictly monotonically increasing on zenith angles in
[0, 88] degrees. -/
theorem C9_airmass_strict_mono (z1 z2 : ℝ) (h0 : 0 ≤ z1) (h12 : z1 < z2)
    (h88 : z2 ≤ 88) : airmass_ag z1 < airmass_ag z2 :=
  airmass_ag_lt_airmass_ag h0 h12 h88

/-- C9 witness: the strict monotonicity at the concrete pair (0, 88). -/
theorem C9_airmass_strict_mono_witness : airmass_ag 0 < airmass_ag 88 :=
  C9_airmass_strict_mono 0 88 (by norm_num) (by norm_num) (by norm_num)

/-- C1: with the default switches (absorption enabled), the compressed path
of get_airglow is numerically identical to the uncompressed one: for every
zenith-angle array with a trailing singleton axis the call returns exactly
what the pipeline without deduplication returns, whether or not compressed
mode triggers; in particular z of shape (3, 1) all zeros reproduces the
scalar z = 0 result replicated across 3 rows. -/
theorem C1_compressed_matches_uncompressed (h : Heap) (atm : Atm) {W : Nat}
    (hwf : wfAtm h atm W) (lam : List ℝ) (s₀ : List Nat) (zd : List ℝ)
    (hzd : zd.length = s₀.prod) (p H : ℝ) (Rayleigh Mie : Bool)
    (rs : List ℝ → List ℝ → List ℝ → List ℝ)
    (hrs : ∀ src vals, (rs lam src vals).length = lam.length)
    (tR : ℝ → ℝ → ℝ → ℝ) (tM : ℝ → ℝ) :
    (get_airglow h atm lam ⟨s₀ ++ [1], zd⟩ p H Rayleigh Mie true rs tR tM).2 =
      (get_airglow_nodedup h atm lam ⟨s₀ ++ [1], zd⟩ p H Rayleigh Mie true rs
        tR tM).2 ∧
    ∃ c0 l0 : List ℝ,
      (get_airglow h atm lam ⟨[], [0]⟩ p H Rayleigh Mie true rs tR tM).2 =
        .ok (⟨[lam.length], c0⟩, ⟨[lam.length], l0⟩) ∧
      (get_airglow h atm lam ⟨[3, 1], [0, 0, 0]⟩ p H Rayleigh Mie true rs
          tR tM).2 =
        .ok (⟨[3, lam.length], c0 ++ c0 ++ c0⟩,
             ⟨[3, lam.length], l0 ++ l0 ++ l0⟩) := by
  refine ⟨get_airglow_eq_nodedup h atm hwf lam s₀ zd hzd p H Rayleigh Mie rs
      hrs tR tM,
    rowPipe rs tR tM lam (hget h atm.wavelength).data p H Rayleigh Mie
      (hget h atm.trans_ma).data (hget h atm.airglow_cont).data 0,
    rowPipe rs tR tM lam (hget h atm.wavelength).data p H Rayleigh Mie
      (hget h atm.trans_ma).data (hget h atm.airglow_line).data 0, ?_, ?_⟩
  · unfold get_airglow
    dsimp only
    have hu1 : npUnique [(0 : ℝ)] = [0] :=
      npUnique_sorted_self [0] (by simp)
    rw [hu1, if_neg (by norm_num)]
    exact pipelineCore_val_scalar h atm hwf lam 0 p H Rayleigh Mie rs hrs tR tM
  · have h31 := get_airglow_eq_nodedup h atm hwf lam [3] [0, 0, 0]
      (by simp) p H Rayleigh Mie rs hrs tR tM
    simp only [List.cons_append, List.nil_append] at h31
    have hv := pipelineCore_val_col h atm hwf lam [3] [0, 0, 0]
      (by simp) p H Rayleigh Mie rs hrs tR tM
    simp only [List.cons_append, List.nil_append] at hv
    rw [h31]
    unfold get_airglow_nodedup
    rw [hv]
    simp [List.append_assoc]

/-- C1 witness: the equivalence and the broadcast instance at the concrete
demonstration table and one-point wavelength grid. -/
theorem C1_compressed_matches_uncompressed_witness :
    (get_airglow demoHeap demoAtm [500] ⟨[] ++ [1], [0]⟩ 744 2.64 true true
        true rsConst tR0 tM0).2 =
      (get_airglow_nodedup demoHeap demoAtm [500] ⟨[] ++ [1], [0]⟩ 744 2.64
        true true true rsConst tR0 tM0).2 ∧
    ∃ c0 l0 : List ℝ,
      (get_airglow demoHeap demoAtm [500] ⟨[], [0]⟩ 744 2.64 true true true
          rsConst tR0 tM0).2 =
        .ok (⟨[([500] : List ℝ).length], c0⟩, ⟨[([500] : List ℝ).length], l0⟩) ∧
      (get_airglow demoHeap demoAtm [500] ⟨[3, 1], [0, 0, 0]⟩ 744 2.64 true
          true true rsConst tR0 tM0).2 =
        .ok (⟨[3, ([500] : List ℝ).length], c0 ++ c0 ++ c0⟩,
             ⟨[3, ([500] : List ℝ).length], l0 ++ l0 ++ l0⟩) :=
  C1_compressed_matches_uncompressed demoHeap demoAtm wfAtm_demo [500] [] [0]
    rfl 744 2.64 true true rsConst
    (fun src vals => rsConst_length [500] src vals) tR0 tM0

/-- C2 (counterexample): at the concrete input z of shape (3, 2) with all
entries equal (so compressed mode triggers and the trailing axis is not a
singleton), get_airglow fails with the bare assertion of line 101, which
carries no message, and not with a descriptive precondition error. -/
theorem C2_counterexample :
    (get_airglow demoHeap demoAtm [500] ⟨[3, 2], List.replicate 6 0⟩ 744 2.64
        true true true rsConst tR0 tM0).2 = .error .assertionFailed ∧
    ∀ msg, (get_airglow demoHeap demoAtm [500] ⟨[3, 2], List.replicate 6 0⟩
        744 2.64 true true true rsConst tR0 tM0).2 ≠
      .error (.preconditionViolation msg) := by
  have h1 : (get_airglow demoHeap demoAtm [500] ⟨[3, 2], List.replicate 6 0⟩
      744 2.64 true true true rsConst tR0 tM0).2 = .error .assertionFailed := by
    unfold get_airglow
    dsimp only
    rw [npUnique_replicate 6 (by norm_num) 0]
    rw [if_pos (by norm_num), if_neg (by decide)]
  refine ⟨h1, fun msg hmsg => ?_⟩
  rw [h1] at hmsg
  exact Err.noConfusion (Except.error.inj hmsg)

/-- C2 (amended): whenever compressed mode triggers (fewer than 3/4 of the
entries of z are distinct) and z's trailing axis is not a singleton,
get_airglow fails with the bare assertionFailed error of the assert on line
101 and the heap is untouched; no descriptive precondition error is
raised. -/
theorem C2_bare_assert_on_bad_trailing_axis (h : Heap) (atm : Atm)
    (lam : List ℝ) (z : NDArr) (p H : ℝ) (Rayleigh Mie absorption : Bool)
    (rs : List ℝ → List ℝ → List ℝ → List ℝ)
    (tR : ℝ → ℝ → ℝ → ℝ) (tM : ℝ → ℝ)
    (hcomp : 4 * (npUnique z.data).length < 3 * z.shape.prod)
    (hlast : z.shape.getLastD 0 ≠ 1) :
    get_airglow h atm lam z p H Rayleigh Mie absorption rs tR tM =
      (h, .error .assertionFailed) := by
  unfold get_airglow
  dsimp only
  rw [if_pos hcomp, if_neg hlast]

/-- C2 witness: the amended behaviour at the concrete shape-(3, 2) input. -/
theorem C2_bare_assert_witness :
    get_airglow demoHeap demoAtm [500] ⟨[3, 2], List.replicate 6 0⟩ 744 2.64
        true true true rsConst tR0 tM0 = (demoHeap, .error .assertionFailed) :=
  C2_bare_assert_on_bad_trailing_axis demoHeap demoAtm [500]
    ⟨[3, 2], List.replicate 6 0⟩ 744 2.64 true true true rsConst tR0 tM0
    (by
      show 4 * (npUnique (List.replicate 6 0)).length <
        3 * ([3, 2] : List Nat).prod
      rw [npUnique_replicate 6 (by norm_num) 0]
      norm_num)
    (by decide)

/-- C3: the claimed output-shape invariant fails: with every switch off
(Rayleigh = Mie = absorption = False) and z of shape (3, 1) all zeros over a
5-point wavelength grid, the compressed path returns arrays of shape (3,)
instead of the claimed broadcast shape (3, 5): with no effect applied, cont
and line stay 1-D in wavelength, so the final gather cont[idx_out] indexes
the wavelength axis with zenith-angle indices. -/
theorem C3_gather_shape_bug :
    ∃ cont line : NDArr,
      (get_airglow demoHeap demoAtm [300, 500, 700, 900, 1100]
          ⟨[3, 1], [0, 0, 0]⟩ 744 2.64 false false false rsConst
          tR0 tM0).2 = .ok (cont, line) ∧
      cont.shape = [3] ∧ line.shape = [3] ∧ cont.shape ≠ [3, 5] := by
  unfold get_airglow
  dsimp only
  rw [show ([0, 0, 0] : List ℝ) = List.replicate 3 0 from rfl,
    npUnique_replicate 3 (by norm_num) 0]
  rw [if_pos (by norm_num), if_pos (by decide)]
  exact ⟨_, _, rfl, rfl, rfl, by decide⟩

/-- C4 (counterexample): a 1-D zenith-angle array is not accepted with
absorption enabled: z = [0, 1, 2] (all distinct, so the uncompressed path
runs) against the two-bin table raises a broadcasting error, because
trans_ma of shape (2,) cannot be broadcast against airmass of shape (3,). -/
theorem C4_counterexample :
    (get_airglow demoHeap2 demoAtm [500] ⟨[3], [0, 1, 2]⟩ 744 2.64
        true true true rsConst tR0 tM0).2 = .error .broadcastMismatch := by
  unfold get_airglow
  dsimp only
  rw [npUnique_sorted_self [0, 1, 2] (by norm_num [List.sorted_cons])]
  rw [if_neg (by norm_num)]
  rfl

/-- C4 (amended): get_airglow does not accept z of every shape, but it does
complete, with absorption enabled, on every z whose trailing axis is a
singleton: the call returns a continuum and a line array, both of shape
z.shape with the trailing singleton replaced by the wavelength count. -/
theorem C4_trailing_singleton_succeeds (h : Heap) (atm : Atm) {W : Nat}
    (hwf : wfAtm h atm W) (lam : List ℝ) (s₀ : List Nat) (zd : List ℝ)
    (hzd : zd.length = s₀.prod) (p H : ℝ) (Rayleigh Mie : Bool)
    (rs : List ℝ → List ℝ → List ℝ → List ℝ)
    (hrs : ∀ src vals, (rs lam src vals).length = lam.length)
    (tR : ℝ → ℝ → ℝ → ℝ) (tM : ℝ → ℝ) :
    ∃ cont line : NDArr,
      (get_airglow h atm lam ⟨s₀ ++ [1], zd⟩ p H Rayleigh Mie true rs tR tM).2 =
        .ok (cont, line) ∧
      cont.shape = s₀ ++ [lam.length] ∧ line.shape = s₀ ++ [lam.length] := by
  rw [get_airglow_eq_nodedup h atm hwf lam s₀ zd hzd p H Rayleigh Mie rs hrs
    tR tM]
  unfold get_airglow_nodedup
  rw [pipelineCore_val_col h atm hwf lam s₀ zd hzd p H Rayleigh Mie rs hrs
    tR tM]
  exact ⟨_, _, rfl, rfl, rfl⟩

/-- C4 witness: the amended success property at a concrete trailing-singleton
zenith-angle array on the demonstration table. -/
theorem C4_trailing_singleton_witness :
    ∃ cont line : NDArr,
      (get_airglow demoHeap demoAtm [500] ⟨[] ++ [1], [0]⟩ 744 2.64 true true
          true rsConst tR0 tM0).2 = .ok (cont, line) ∧
      cont.shape = [] ++ [([500] : List ℝ).length] ∧
      line.shape = [] ++ [([500] : List ℝ).length] :=
  C4_trailing_singleton_succeeds demoHeap demoAtm wfAtm_demo [500] [] [0]
    rfl 744 2.64 true true rsConst (fun src vals => rsConst_length [500] src vals)
    tR0 tM0

/-- C5: get_airglow never mutates the shared atmosphere table: for any
arguments and switch settings, the heap buffers of the table's wavelength,
airglow_cont, airglow_line and trans_ma columns are unchanged after the
call (every intermediate numpy result is a fresh buffer and the only
in-place update writes one of those fresh buffers). -/
theorem C5_table_pristine (h : Heap) (atm : Atm) (lam : List ℝ) (z : NDArr)
    (p H : ℝ) (Rayleigh Mie absorption : Bool)
    (rs : List ℝ → List ℝ → List ℝ → List ℝ)
    (tR : ℝ → ℝ → ℝ → ℝ) (tM : ℝ → ℝ)
    (hw : atm.wavelength < hsize h) (hc : atm.airglow_cont < hsize h)
    (hl : atm.airglow_line < hsize h) (ht : atm.trans_ma < hsize h) :
    hget (get_airglow h atm lam z p H Rayleigh Mie absorption rs tR tM).1
        atm.wavelength = hget h atm.wavelength ∧
    hget (get_airglow h atm lam z p H Rayleigh Mie absorption rs tR tM).1
        atm.airglow_cont = hget h atm.airglow_cont ∧
    hget (get_airglow h atm lam z p H Rayleigh Mie absorption rs tR tM).1
        atm.airglow_line = hget h atm.airglow_line ∧
    hget (get_airglow h atm lam z p H Rayleigh Mie absorption rs tR tM).1
        atm.trans_ma = hget h atm.trans_ma := by
  have hx := get_airglow_heapExt h atm lam z p H Rayleigh Mie absorption rs tR tM
  exact ⟨hx.2 _ hw, hx.2 _ hc, hx.2 _ hl, hx.2 _ ht⟩

/-- C5 witness: the frame property at a concrete call on the demonstration
table. -/
theorem C5_table_pristine_witness :
    hget (get_airglow demoHeap demoAtm [500] ⟨[], [0]⟩ 744 2.64 true true true
        rsConst tR0 tM0).1 demoAtm.wavelength = hget demoHeap demoAtm.wavelength ∧
    hget (get_airglow demoHeap demoAtm [500] ⟨[], [0]⟩ 744 2.64 true true true
        rsConst tR0 tM0).1 demoAtm.airglow_cont = hget demoHeap demoAtm.airglow_cont ∧
    hget (get_airglow demoHeap demoAtm [500] ⟨[], [0]⟩ 744 2.64 true true true
        rsConst tR0 tM0).1 demoAtm.airglow_line = hget demoHeap demoAtm.airglow_line ∧
    hget (get_airglow demoHeap demoAtm [500] ⟨[], [0]⟩ 744 2.64 true true true
        rsConst tR0 tM0).1 demoAtm.trans_ma = hget demoHeap demoAtm.trans_ma :=
  C5_table_pristine demoHeap demoAtm [500] ⟨[], [0]⟩ 744 2.64 true true true
    rsConst tR0 tM0 (by decide) (by decide) (by decide) (by decide)

/-- C10: the Rayleigh factor always exceeds the Mie factor: at every zenith
angle, the second component of airglow_scattering is strictly below the
first, because log10(airmass_ag z) stays below 1. -/
theorem C10_rayleigh_exceeds_mie :
    ∀ z : ℝ, (airglow_scattering z).2 < (airglow_scattering z).1 := by
  intro z
  have hx := logb_airmass_lt_one z
  unfold airglow_scattering
  dsimp only
  linarith

end

